import Mathlib

/-!
Verification development for the `lumi_llm` repository: a shallow embedding
of the token cache (`lumi_llm/auth/idaas.py`), the MCP tool client
(`lumi_llm/mcp/client.py`), the tool-schema translator
(`lumi_llm/mcp/tool_converter.py`), the Gemini provider message conversion
(`lumi_llm/providers/gemini.py`) and the ReAct orchestrator loop
(`lumi_llm/agents/tool_agent.py`), together with theorems settling the
frozen claims about them.

Conventions of the embedding:
* Python dicts parsed from JSON are modelled as association lists with
  unique keys (`List (String × JVal)`), JSON values as the inductive `JVal`.
* Python exceptions are modelled by the `PyErr` type; fallible code returns
  `Except PyErr _`.
* Network calls are modelled by explicit oracle functions supplied as
  arguments (the code under verification never retries and treats the
  network as an external collaborator).
* `time.time()` instants are modelled as integers; no arithmetic in the
  embedded code depends on fractional seconds.
-/

/-- JSON values, as produced by `json.loads`; Python dicts from JSON have
unique keys, modelled as association lists. Number literals occurring in the
protocol traffic modelled here are integers. -/
inductive JVal where
  | null
  | bool (b : Bool)
  | num (n : Int)
  | str (s : String)
  | arr (xs : List JVal)
  | obj (fields : List (String × JVal))
deriving Repr

/-- Python exception values raised by the embedded code, one constructor per
raise site / stdlib exception kind. -/
inductive PyErr where
  /-- `AttributeError` from accessing an attribute a pydantic model or object
  does not declare; carries the attribute name. -/
  | attributeError (name : String)
  /-- `KeyError` from `d[k]` on a dict without the key. -/
  | keyError (k : String)
  /-- `TypeError` (e.g. `in` or iteration on a non-container). -/
  | typeError
  /-- `IndexError` from `xs[-1]` on an empty list. -/
  | indexError
  /-- `RuntimeError` with a fixed message. -/
  | runtimeError (msg : String)
  /-- `RuntimeError(f"MCP error: ...")` carrying the JSON-RPC error object. -/
  | mcpError (e : JVal)
  /-- `json.JSONDecodeError` escaping from `response.json()`. -/
  | jsonDecodeError
deriving Repr

mutual

/-- Structural equality on `JVal` (Python `==` on parsed JSON values). -/
def JVal.beq : JVal → JVal → Bool
  | .null, .null => true
  | .bool a, .bool b => a == b
  | .num a, .num b => a == b
  | .str a, .str b => a == b
  | .arr a, .arr b => JVal.beqList a b
  | .obj a, .obj b => JVal.beqFields a b
  | _, _ => false

def JVal.beqList : List JVal → List JVal → Bool
  | [], [] => true
  | a :: as, b :: bs => JVal.beq a b && JVal.beqList as bs
  | _, _ => false

def JVal.beqFields : List (String × JVal) → List (String × JVal) → Bool
  | [], [] => true
  | (ka, va) :: as, (kb, vb) :: bs => ka == kb && JVal.beq va vb && JVal.beqFields as bs
  | _, _ => false

end

instance : BEq JVal := ⟨JVal.beq⟩

/-- Python truthiness of a JSON value (`if value:`). -/
def JVal.truthy : JVal → Bool
  | .null => false
  | .bool b => b
  | .num n => n ≠ 0
  | .str s => s ≠ ""
  | .arr xs => !xs.isEmpty
  | .obj fs => !fs.isEmpty

/-- Lookup in an association-list dict, with a default (`d.get(k, default)`
restricted to dicts). -/
def lookupD (fields : List (String × JVal)) (k : String) (dflt : JVal) : JVal :=
  match fields.lookup k with
  | some v => v
  | none => dflt

/-- Python `d.get(k, default)`: only dicts have `.get`; any other value
raises `AttributeError`. -/
def pyDictGet (v : JVal) (k : String) (dflt : JVal) : Except PyErr JVal :=
  match v with
  | .obj fields => .ok (lookupD fields k dflt)
  | _ => .error (.attributeError "get")

/-- Substring test on character lists (backs Python `needle in haystack`
for strings). -/
def subAux : List Char → List Char → Bool
  | [], needle => needle.isEmpty
  | h :: t, needle => needle.isPrefixOf (h :: t) || subAux t needle

/-- Python `needle in haystack` on strings: substring containment. -/
def strContains (haystack needle : String) : Bool :=
  subAux haystack.toList needle.toList

/-- Python `k in v`: key membership for dicts, element membership for lists,
substring test for strings; `TypeError` on other values. -/
def pyIn (k : String) (v : JVal) : Except PyErr Bool :=
  match v with
  | .obj fields => .ok ((fields.lookup k).isSome)
  | .arr xs => .ok (xs.contains (.str k))
  | .str s => .ok (strContains s k)
  | _ => .error .typeError

/-- Python `v[k]` with a string key: dict lookup (`KeyError` when absent);
`TypeError` on any non-dict value. -/
def pyGetItem (v : JVal) (k : String) : Except PyErr JVal :=
  match v with
  | .obj fields =>
      match fields.lookup k with
      | some x => .ok x
      | none => .error (.keyError k)
  | _ => .error .typeError

/-- Python iteration `for item in v`: lists yield elements, strings yield
one-character strings, dicts yield their keys; `TypeError` otherwise. -/
def pyIter (v : JVal) : Except PyErr (List JVal) :=
  match v with
  | .arr xs => .ok xs
  | .str s => .ok (s.toList.map fun c => .str (String.mk [c]))
  | .obj fields => .ok (fields.map fun p => .str p.1)
  | _ => .error .typeError

/-- Python whitespace (`str.strip` / `str.split` default class). -/
def isPySpace (c : Char) : Bool :=
  c = ' ' || c = '\t' || c = '\n' || c = '\r' || c = Char.ofNat 11 || c = Char.ofNat 12

/-- Python `s.strip()`: drop whitespace from both ends. -/
def strStrip (s : String) : String :=
  String.mk (((s.toList.dropWhile isPySpace).reverse.dropWhile isPySpace).reverse)

/-- Python `s.startswith(p)`. -/
def strStartsWith (s p : String) : Bool :=
  p.toList.isPrefixOf s.toList

/-- Python `s[n:]` (slicing by code points). -/
def strDropChars (s : String) (n : Nat) : String :=
  String.mk (s.toList.drop n)

/-- Python `s.lower()` (ASCII range, as used on content-type headers). -/
def strLower (s : String) : String :=
  String.mk (s.toList.map Char.toLower)

/-- Split a character list on a separator character, keeping empty
segments (Python `s.split(sep)` with a one-character separator). -/
def splitOnChar (sep : Char) : List Char → List (List Char)
  | [] => [[]]
  | c :: rest =>
    let r := splitOnChar sep rest
    if c = sep then [] :: r
    else
      match r with
      | [] => [[c]]
      | g :: gs => (c :: g) :: gs

/-- Python `s.split('\n')`. -/
def strSplitNl (s : String) : List String :=
  (splitOnChar '\n' s.toList).map String.mk

/-! ### A small JSON parser

Models `json.loads` on the protocol messages exchanged by the client
(objects, arrays, strings with common escapes, integers, booleans, null).
Defined with explicit fuel so every definition is executable and
kernel-reducible. -/

/-- Left curly brace character (written via its code point). -/
def braceL : Char := Char.ofNat 123

/-- Right curly brace character (written via its code point). -/
def braceR : Char := Char.ofNat 125

/-- JSON whitespace. -/
def isJsonWs (c : Char) : Bool :=
  c = ' ' || c = '\t' || c = '\n' || c = '\r'

/-- Skip leading JSON whitespace. -/
def skipWs : List Char → List Char
  | [] => []
  | c :: rest => if isJsonWs c then skipWs rest else c :: rest

/-- Parse the body of a JSON string literal (opening quote already
consumed), returning the string and the input after the closing quote. -/
def parseStringBody : List Char → Option (List Char × List Char)
  | [] => none
  | '"' :: rest => some ([], rest)
  | '\\' :: e :: rest =>
      match e with
      | '"' => (parseStringBody rest).map fun (s, r) => ('"' :: s, r)
      | '\\' => (parseStringBody rest).map fun (s, r) => ('\\' :: s, r)
      | '/' => (parseStringBody rest).map fun (s, r) => ('/' :: s, r)
      | 'n' => (parseStringBody rest).map fun (s, r) => ('\n' :: s, r)
      | 't' => (parseStringBody rest).map fun (s, r) => ('\t' :: s, r)
      | 'r' => (parseStringBody rest).map fun (s, r) => ('\r' :: s, r)
      | 'b' => (parseStringBody rest).map fun (s, r) => (Char.ofNat 8 :: s, r)
      | 'f' => (parseStringBody rest).map fun (s, r) => (Char.ofNat 12 :: s, r)
      | _ => none
  | c :: rest => (parseStringBody rest).map fun (s, r) => (c :: s, r)

/-- Digit test. -/
def isDigitCh (c : Char) : Bool := '0' ≤ c && c ≤ '9'

/-- Parse a run of digits as a natural number (empty run fails). -/
def parseDigits (cs : List Char) : Option (Nat × List Char) :=
  let run := cs.takeWhile isDigitCh
  if run.isEmpty then none
  else some (run.foldl (fun a c => a * 10 + (c.toNat - '0'.toNat)) 0, cs.dropWhile isDigitCh)

mutual

/-- Parse one JSON value; `fuel` bounds nesting/length. -/
def parseVal : Nat → List Char → Option (JVal × List Char)
  | 0, _ => none
  | fuel + 1, cs =>
    match skipWs cs with
    | [] => none
    | c :: rest =>
      if c = braceL then
        match skipWs rest with
        | c2 :: rest2 =>
          if c2 = braceR then some (.obj [], rest2)
          else parseMembers fuel (c2 :: rest2)
        | [] => none
      else if c = '[' then
        match skipWs rest with
        | ']' :: rest2 => some (.arr [], rest2)
        | cs2 => parseElems fuel cs2
      else if c = '"' then
        (parseStringBody rest).map fun (s, r) => (.str (String.mk s), r)
      else if c = 't' then
        match rest with
        | 'r' :: 'u' :: 'e' :: r => some (.bool true, r)
        | _ => none
      else if c = 'f' then
        match rest with
        | 'a' :: 'l' :: 's' :: 'e' :: r => some (.bool false, r)
        | _ => none
      else if c = 'n' then
        match rest with
        | 'u' :: 'l' :: 'l' :: r => some (.null, r)
        | _ => none
      else if c = '-' then
        (parseDigits rest).map fun (n, r) => (.num (-(n : Int)), r)
      else if isDigitCh c then
        (parseDigits (c :: rest)).map fun (n, r) => (.num (n : Int), r)
      else none

/-- Parse the members of a JSON object after at least one key is known to
follow. -/
def parseMembers : Nat → List Char → Option (JVal × List Char)
  | 0, _ => none
  | fuel + 1, cs =>
    match skipWs cs with
    | '"' :: rest =>
      match parseStringBody rest with
      | none => none
      | some (key, r1) =>
        match skipWs r1 with
        | ':' :: r2 =>
          match parseVal fuel r2 with
          | none => none
          | some (v, r3) =>
            match skipWs r3 with
            | ',' :: r4 =>
              match parseMembers fuel r4 with
              | some (.obj fields, r5) => some (.obj ((String.mk key, v) :: fields), r5)
              | _ => none
            | c :: r4 =>
              if c = braceR then some (.obj [(String.mk key, v)], r4) else none
            | [] => none
        | _ => none
    | _ => none

/-- Parse the elements of a JSON array after at least one element is known
to follow. -/
def parseElems : Nat → List Char → Option (JVal × List Char)
  | 0, _ => none
  | fuel + 1, cs =>
    match parseVal fuel cs with
    | none => none
    | some (v, r1) =>
      match skipWs r1 with
      | ',' :: r2 =>
        match parseElems fuel r2 with
        | some (.arr xs, r3) => some (.arr (v :: xs), r3)
        | _ => none
      | ']' :: r2 => some (.arr [v], r2)
      | _ => none

end

/-- `json.loads`: parse a complete JSON document; `none` models
`json.JSONDecodeError`. -/
def jsonParse (s : String) : Option JVal :=
  match parseVal (4 * s.length + 16) s.toList with
  | some (v, rest) => if (skipWs rest).isEmpty then some v else none
  | _ => none

/-! ### Byte-level primitives: UTF-8, SHA-256, HMAC, base64url

These back `IdaaSClient._generate_signature`
(`hmac.new(secret, message, hashlib.sha256)` then URL-safe base64 without
padding). Bytes are naturals `< 256`; 32-bit words are naturals reduced
modulo `2 ^ 32`. -/

/-- UTF-8 encoding of one character. -/
def charUtf8 (c : Char) : List Nat :=
  let n := c.toNat
  if n < 128 then [n]
  else if n < 2048 then [192 ||| (n >>> 6), 128 ||| (n &&& 63)]
  else if n < 65536 then
    [224 ||| (n >>> 12), 128 ||| ((n >>> 6) &&& 63), 128 ||| (n &&& 63)]
  else
    [240 ||| (n >>> 18), 128 ||| ((n >>> 12) &&& 63),
     128 ||| ((n >>> 6) &&& 63), 128 ||| (n &&& 63)]

/-- UTF-8 encoding of a string (`s.encode('utf-8')`). -/
def utf8Bytes (s : String) : List Nat :=
  (s.data.map charUtf8).flatten

/-- Split a byte list into chunks of `k` bytes; fuel-driven so it reduces in
the kernel (call with `fuel = l.length + 1`). -/
def chunksF : Nat → Nat → List Nat → List (List Nat)
  | 0, _, _ => []
  | _, _, [] => []
  | fuel + 1, k, l => l.take k :: chunksF fuel k (l.drop k)

/-- Big-endian bytes of `n`, `k` bytes wide. -/
def natToBytesBE (k : Nat) (n : Nat) : List Nat :=
  (List.range k).map fun i => (n >>> (8 * (k - 1 - i))) &&& 255

/-- Assemble big-endian bytes into a natural. -/
def bytesToWord (bs : List Nat) : Nat :=
  bs.foldl (fun a b => a * 256 + b) 0

/-- Right rotation of a 32-bit word. -/
def rotr32 (n x : Nat) : Nat :=
  ((x >>> n) ||| (x <<< (32 - n))) % 4294967296

/-- SHA-256 σ₀. -/
def sSig0 (x : Nat) : Nat := rotr32 7 x ^^^ rotr32 18 x ^^^ (x >>> 3)

/-- SHA-256 σ₁. -/
def sSig1 (x : Nat) : Nat := rotr32 17 x ^^^ rotr32 19 x ^^^ (x >>> 10)

/-- SHA-256 Σ₀. -/
def bSig0 (x : Nat) : Nat := rotr32 2 x ^^^ rotr32 13 x ^^^ rotr32 22 x

/-- SHA-256 Σ₁. -/
def bSig1 (x : Nat) : Nat := rotr32 6 x ^^^ rotr32 11 x ^^^ rotr32 25 x

/-- SHA-256 choose function. -/
def chF (x y z : Nat) : Nat := (x &&& y) ^^^ ((x ^^^ 4294967295) &&& z)

/-- SHA-256 majority function. -/
def majF (x y z : Nat) : Nat := (x &&& y) ^^^ (x &&& z) ^^^ (y &&& z)

/-- SHA-256 round constants. -/
def sha256K : Array Nat := #[
   1116352408, 1899447441, 3049323471, 3921009573, 961987163, 1508970993,
   2453635748, 2870763221, 3624381080, 310598401, 607225278, 1426881987,
   1925078388, 2162078206, 2614888103, 3248222580, 3835390401, 4022224774,
   264347078, 604807628, 770255983, 1249150122, 1555081692, 1996064986,
   2554220882, 2821834349, 2952996808, 3210313671, 3336571891, 3584528711,
   113926993, 338241895, 666307205, 773529912, 1294757372, 1396182291,
   1695183700, 1986661051, 2177026350, 2456956037, 2730485921, 2820302411,
   3259730800, 3345764771, 3516065817, 3600352804, 4094571909, 275423344,
   430227734, 506948616, 659060556, 883997877, 958139571, 1322822218,
   1537002063, 1747873779, 1955562222, 2024104815, 2227730452, 2361852424,
   2428436474, 2756734187, 3204031479, 3329325298]

/-- SHA-256 initial hash value. -/
def sha256H0 : List Nat :=
  [1779033703, 3144134277, 1013904242, 2773480762,
   1359893119, 2600822924, 528734635, 1541459225]

/-- Working state of the SHA-256 compression function. -/
structure Sha256St where
  a : Nat
  b : Nat
  c : Nat
  d : Nat
  e : Nat
  f : Nat
  g : Nat
  h : Nat

/-- Extend 16 message-schedule words to 64. -/
def extendW (w : Array Nat) : Array Nat :=
  (List.range 48).foldl
    (fun w i =>
      w.push ((sSig1 w[i + 14]! + w[i + 9]! + sSig0 w[i + 1]! + w[i]!) % 4294967296))
    w

/-- One SHA-256 compression round. -/
def sha256Round (w : Array Nat) (s : Sha256St) (i : Nat) : Sha256St :=
  let t1 := (s.h + bSig1 s.e + chF s.e s.f s.g + sha256K[i]! + w[i]!) % 4294967296
  let t2 := (bSig0 s.a + majF s.a s.b s.c) % 4294967296
  ⟨(t1 + t2) % 4294967296, s.a, s.b, s.c, (s.d + t1) % 4294967296, s.e, s.f, s.g⟩

/-- SHA-256 compression of one 64-byte block into the chaining value. -/
def sha256Block (hv : List Nat) (block : List Nat) : List Nat :=
  let w := extendW ((chunksF (block.length + 1) 4 block).map bytesToWord).toArray
  match hv with
  | [h0, h1, h2, h3, h4, h5, h6, h7] =>
    let s := (List.range 64).foldl (sha256Round w) ⟨h0, h1, h2, h3, h4, h5, h6, h7⟩
    [(h0 + s.a) % 4294967296, (h1 + s.b) % 4294967296, (h2 + s.c) % 4294967296,
     (h3 + s.d) % 4294967296, (h4 + s.e) % 4294967296, (h5 + s.f) % 4294967296,
     (h6 + s.g) % 4294967296, (h7 + s.h) % 4294967296]
  | _ => hv

/-- SHA-256 digest of a byte list (`hashlib.sha256(...).digest()`). -/
def sha256 (msg : List Nat) : List Nat :=
  let padLen := (119 - msg.length % 64) % 64
  let padded := msg ++ 128 :: List.replicate padLen 0 ++ natToBytesBE 8 (msg.length * 8)
  let final := (chunksF (padded.length + 1) 64 padded).foldl sha256Block sha256H0
  (final.map (natToBytesBE 4)).flatten

/-- HMAC-SHA256 (`hmac.new(key, msg, hashlib.sha256).digest()`). -/
def hmacSha256 (key msg : List Nat) : List Nat :=
  let k0 := if 64 < key.length then sha256 key else key
  let k := k0 ++ List.replicate (64 - k0.length) 0
  let ipadded := k.map fun b => b ^^^ 54
  let opadded := k.map fun b => b ^^^ 92
  sha256 (opadded ++ sha256 (ipadded ++ msg))

/-- URL-safe base64 alphabet, indexed. -/
def b64UrlChar (n : Nat) : Char :=
  "ABCDEFGHIJKLMNOPQRSTUVWXYZabcdefghijklmnopqrstuvwxyz0123456789-_".toList.getD n 'A'

/-- Encode a byte list in URL-safe base64 without padding; fuel-driven. -/
def b64Go : Nat → List Nat → List Char
  | 0, _ => []
  | _, [] => []
  | _ + 1, [b0] =>
      [b64UrlChar (b0 >>> 2), b64UrlChar ((b0 &&& 3) <<< 4)]
  | _ + 1, [b0, b1] =>
      [b64UrlChar (b0 >>> 2), b64UrlChar (((b0 &&& 3) <<< 4) ||| (b1 >>> 4)),
       b64UrlChar ((b1 &&& 15) <<< 2)]
  | fuel + 1, b0 :: b1 :: b2 :: rest =>
      b64UrlChar (b0 >>> 2) :: b64UrlChar (((b0 &&& 3) <<< 4) ||| (b1 >>> 4)) ::
      b64UrlChar (((b1 &&& 15) <<< 2) ||| (b2 >>> 6)) :: b64UrlChar (b2 &&& 63) ::
      b64Go fuel rest

/-- `base64.urlsafe_b64encode(bytes).decode().rstrip('=')`: URL-safe base64
without padding. -/
def b64UrlNoPad (bs : List Nat) : String :=
  String.mk (b64Go (bs.length + 1) bs)

/-! ### `lumi_llm/config/settings.py` — `IdaaSConfig`

The pydantic model declares exactly the fields below; accessing any other
attribute on an instance raises `AttributeError`. Attribute access by name
is modelled by `IdaaSConfig.attr`. -/

/-- A value held by a configuration attribute. -/
inductive AttrVal where
  | str (s : String)
  | int (n : Int)
  | bool (b : Bool)
deriving Repr, DecidableEq

/-- `IdaaSConfig` from `lumi_llm/config/settings.py` (fields and defaults as
declared there). -/
structure IdaaSConfig where
  id : String
  version : String := "2"
  url : String
  secret : String
  token_refresh_time : Int := 60
  verify_ssl : Bool := true
deriving Repr, DecidableEq

/-- Python attribute access `config.<name>` on an `IdaaSConfig` instance:
`some` for the six declared fields, `none` (= `AttributeError`) otherwise. -/
def IdaaSConfig.attr (c : IdaaSConfig) : String → Option AttrVal
  | "id" => some (.str c.id)
  | "version" => some (.str c.version)
  | "url" => some (.str c.url)
  | "secret" => some (.str c.secret)
  | "token_refresh_time" => some (.int c.token_refresh_time)
  | "verify_ssl" => some (.bool c.verify_ssl)
  | _ => none

/-- `config.<name>` where an integer is consumed: `AttributeError` when the
attribute is not declared, `TypeError` sentinel when it is not an integer. -/
def IdaaSConfig.attrInt (c : IdaaSConfig) (name : String) : Except PyErr Int :=
  match c.attr name with
  | some (.int n) => .ok n
  | some _ => .error .typeError
  | none => .error (.attributeError name)

/-- `config.<name>` where a scope list is consumed. `IdaaSConfig` declares
no list-valued attribute, so this is `AttributeError` for every name. -/
def IdaaSConfig.attrScope (c : IdaaSConfig) (name : String) : Except PyErr (List String) :=
  match c.attr name with
  | some _ => .error .typeError
  | none => .error (.attributeError name)

/-! ### `lumi_llm/auth/idaas.py` — `IdaaSClient`

The client's mutable cache `self._token` is threaded explicitly as an
`Option TokenInfo`; the identity endpoint (httpx POST + `raise_for_status`
+ `.json()`) is an oracle from the built request to either a transport
error or the parsed JSON body. `get_token_sync` returns the call's result,
the updated cache, and the number of network fetches performed (0 or 1). -/

namespace IdaaS

/-- `TokenInfo` dataclass: token, type, absolute expiry instant, scope. -/
structure TokenInfo where
  access_token : String
  token_type : String
  expires_at : Int
  scope : JVal := .null
deriving Repr

/-- `self._refresh_buffer = 10` (seconds), set in `IdaaSClient.__init__`. -/
def refreshBuffer : Int := 10

/-- `IdaaSClient._is_token_valid`: a cached token is valid while `now` is
before its expiry minus the refresh buffer. -/
def is_token_valid (now : Int) (tok : Option TokenInfo) : Bool :=
  match tok with
  | none => false
  | some t => now < t.expires_at - refreshBuffer

/-- `IdaaSClient._generate_signature`: HMAC-SHA256 of `app_id + timestamp`
keyed by the secret, URL-safe base64 encoded without padding. The
timestamp is the millisecond value `int(time.time() * 1000)`. -/
def generate_signature (cfg : IdaaSConfig) (ts : Nat) : String :=
  b64UrlNoPad (hmacSha256 (utf8Bytes cfg.secret) (utf8Bytes (cfg.id ++ toString ts)))

/-- `IdaaSClient._get_auth_headers`: the X-Auth signature-scheme headers. -/
def get_auth_headers (cfg : IdaaSConfig) (ts : Nat) : List (String × String) :=
  [("Content-Type", "application/json"),
   ("Accept", "application/json"),
   ("X-Auth-AppID", cfg.id),
   ("X-Auth-Signature", generate_signature cfg ts),
   ("X-Auth-Version", "2"),
   ("X-Auth-Timestamp", toString ts)]

/-- The JSON request body built by `IdaaSClient._build_request_body`:
`{"scope": effective_scope}` when the effective scope is truthy, else `{}`. -/
inductive TokenReqBody where
  | emptyObj
  | withScope (scope : List String)
deriving Repr, DecidableEq

/-- `IdaaSClient._build_request_body`: the effective scope is the argument
when not `None`, otherwise `self.config.scope` — an attribute `IdaaSConfig`
does not declare. -/
def build_request_body (cfg : IdaaSConfig) (scope : Option (List String)) :
    Except PyErr TokenReqBody := do
  let effective ← match scope with
    | some s => Except.ok s
    | none => cfg.attrScope "scope"
  .ok (if effective.isEmpty then .emptyObj else .withScope effective)

/-- Body of an outbound HTTP request: either a JSON body (httpx `json=`) or
a form-encoded body (httpx `data=`). The client only ever builds JSON
bodies; the form variant exists so the spec's OAuth2 request shape is
expressible for comparison. -/
inductive ReqBody where
  | jsonScope (b : TokenReqBody)
  | formEncoded (fields : List (String × String))
deriving Repr, DecidableEq

/-- An outbound identity-endpoint request. -/
structure HttpRequest where
  url : String
  headers : List (String × String)
  body : ReqBody
deriving Repr, DecidableEq

/-- The request `get_token_sync` / `get_token` posts on a cache miss:
config URL, X-Auth headers, JSON body. -/
def tokenRequest (cfg : IdaaSConfig) (ts : Nat) (b : TokenReqBody) : HttpRequest :=
  ⟨cfg.url, get_auth_headers cfg ts, .jsonScope b⟩

/-- Modelled from the spec: "OAuth2 client-credentials: POST form body
`grant_type=client_credentials&client_id=…&client_secret=…[&scope=…]`"
(spec §4.1, scheme 1). Holds of a request exactly when it is form-encoded
with a `client_credentials` grant and client id/secret fields. -/
def isOAuth2ClientCredentialsRequest (r : HttpRequest) : Bool :=
  match r.body with
  | .formEncoded fields =>
      fields.lookup "grant_type" == some "client_credentials" &&
      (fields.lookup "client_id").isSome &&
      (fields.lookup "client_secret").isSome
  | .jsonScope _ => false

/-- The identity endpoint as an oracle: transport/HTTP-status failures
(`raise_for_status`) or JSON-decode failures surface as `PyErr`; success
yields the parsed response body. -/
def IdentityNet := HttpRequest → Except PyErr JVal

/-- `IdaaSClient._parse_token_response`. Note the Python line
`response_data.get("expires_in", self.config.token_refresh_interval)`
evaluates the default argument before the lookup, so the
`token_refresh_interval` attribute is read on every parse. -/
def parse_token_response (cfg : IdaaSConfig) (now : Int) (rd : JVal) :
    Except PyErr TokenInfo := do
  let dflt ← cfg.attrInt "token_refresh_interval"
  let expiresIn ← pyDictGet rd "expires_in" (.num dflt)
  let expiresAt ← match expiresIn with
    | .num n => Except.ok (now + n)
    | _ => Except.error .typeError
  let accessVal ← pyGetItem rd "access_token"
  let access ← match accessVal with
    | .str s => Except.ok s
    | _ => Except.error .typeError
  let typeVal ← pyDictGet rd "token_type" (.str "Bearer")
  let tokType ← match typeVal with
    | .str s => Except.ok s
    | _ => Except.error .typeError
  let scopeVal ← pyDictGet rd "scope" .null
  .ok ⟨access, tokType, expiresAt, scopeVal⟩

/-- `IdaaSClient.get_token_sync`: return the cached token while valid,
otherwise build headers and body, POST to the identity endpoint, parse and
cache the response. Result: the call's outcome, the cache afterwards, and
how many network fetches were performed. -/
def get_token_sync (cfg : IdaaSConfig) (net : IdentityNet) (now : Int) (ts : Nat)
    (scope : Option (List String)) (tok : Option TokenInfo) :
    Except PyErr String × Option TokenInfo × Nat :=
  if is_token_valid now tok then
    match tok with
    | some t => (.ok t.access_token, tok, 0)
    | none => (.error .indexError, tok, 0)
  else
    match build_request_body cfg scope with
    | .error e => (.error e, tok, 0)
    | .ok body =>
      match net (tokenRequest cfg ts body) with
      | .error e => (.error e, tok, 1)
      | .ok rd =>
        match parse_token_response cfg now rd with
        | .error e => (.error e, tok, 1)
        | .ok newTok => (.ok newTok.access_token, some newTok, 1)

/-- `IdaaSClient.get_token` (async variant): same body as the synchronous
path, awaited under the async lock instead of the thread lock. -/
def get_token (cfg : IdaaSConfig) (net : IdentityNet) (now : Int) (ts : Nat)
    (scope : Option (List String)) (tok : Option TokenInfo) :
    Except PyErr String × Option TokenInfo × Nat :=
  if is_token_valid now tok then
    match tok with
    | some t => (.ok t.access_token, tok, 0)
    | none => (.error .indexError, tok, 0)
  else
    match build_request_body cfg scope with
    | .error e => (.error e, tok, 0)
    | .ok body =>
      match net (tokenRequest cfg ts body) with
      | .error e => (.error e, tok, 1)
      | .ok rd =>
        match parse_token_response cfg now rd with
        | .error e => (.error e, tok, 1)
        | .ok newTok => (.ok newTok.access_token, some newTok, 1)

/-- `IdaaSClient.clear_token`: drop the cached token unconditionally. -/
def clear_token (_tok : Option TokenInfo) : Option TokenInfo := none

end IdaaS

/-! ### `lumi_llm/mcp/client.py` — `MCPClient`

The client's mutable fields (`_message_endpoint`, `_session_id`, `_tools`)
are threaded as an explicit `MCPState`. The tool server (httpx POST +
`raise_for_status`) is an oracle from the JSON-RPC payload to either a
transport error or the HTTP response (content type + body text). The async
and sync call surfaces of the source are embedded as separate twin
definitions. -/

namespace MCP

/-- `MCPTool` dataclass. The MCP protocol guarantees `name`/`description`
are strings and `inputSchema` is a JSON object; the embedding restricts to
such conformant values. -/
structure MCPTool where
  name : String
  description : String
  input_schema : List (String × JVal) := []
deriving Repr

/-- `MCPToolResult` dataclass; `content` and `is_error` hold whatever the
response carried (Python does not enforce the annotations). -/
structure MCPToolResult where
  content : JVal
  is_error : JVal
deriving Repr

/-- `MCPServerConfig` from `lumi_llm/config/settings.py`. -/
structure MCPServerConfig where
  url : String
  transport : String := "streamable-http"
  verify_ssl : Bool := true
deriving Repr

/-- The client's mutable connection state. -/
structure MCPState where
  endpoint : Option String := none
  session_id : Option String := none
  tools : List MCPTool := []
deriving Repr

/-- A JSON-RPC request as posted to the server: target endpoint, fresh id,
method, and params (omitted when falsy, per `if params:`). -/
structure JsonRpcReq where
  endpoint : String
  id : String
  method : String
  params : Option JVal
deriving Repr

/-- An HTTP response from the tool server after `raise_for_status`:
the `content-type` header and the body text. -/
structure HttpResp where
  contentType : String
  body : String
deriving Repr, DecidableEq

/-- The tool server as an oracle; `PyErr` covers transport failures and
non-2xx statuses raised by `raise_for_status`. -/
def Net := JsonRpcReq → Except PyErr HttpResp

/-- Build the JSON-RPC payload: `params` is attached only when truthy. -/
def mkPayload (endpoint rid method : String) (params : Option JVal) : JsonRpcReq :=
  ⟨endpoint, rid, method,
   match params with
   | some p => if p.truthy then some p else none
   | none => none⟩

/-- One step of `_parse_sse_response_async`'s line scan, folding the
running `result` over the body's lines. -/
def sseGoA : List String → JVal → Except PyErr JVal
  | [], acc => .ok acc
  | l :: rest, acc =>
    let line := strStrip l
    if strStartsWith line "data:" then
      let dataStr := strStrip (strDropChars line 5)
      if dataStr = "" then sseGoA rest acc
      else
        match jsonParse dataStr with
        | none => sseGoA rest acc
        | some data => do
          let hasResult ← pyIn "result" data
          if hasResult then do
            let r ← pyDictGet data "result" (.obj [])
            sseGoA rest r
          else do
            let hasError ← pyIn "error" data
            if hasError then do
              let e ← pyGetItem data "error"
              Except.error (.mcpError e)
            else sseGoA rest acc
    else sseGoA rest acc

/-- `MCPClient._parse_sse_response_async`: scan every `data:` line of the
SSE body, keeping the last JSON-RPC `result` and raising on an `error`. -/
def parse_sse_response_async (resp : HttpResp) : Except PyErr JVal :=
  sseGoA (strSplitNl resp.body) (.obj [])

/-- One step of `_parse_sse_response_sync`'s line scan (the sync twin of
`sseGoA`, duplicated in the source). -/
def sseGoS : List String → JVal → Except PyErr JVal
  | [], acc => .ok acc
  | l :: rest, acc =>
    let line := strStrip l
    if strStartsWith line "data:" then
      let dataStr := strStrip (strDropChars line 5)
      if dataStr = "" then sseGoS rest acc
      else
        match jsonParse dataStr with
        | none => sseGoS rest acc
        | some data => do
          let hasResult ← pyIn "result" data
          if hasResult then do
            let r ← pyDictGet data "result" (.obj [])
            sseGoS rest r
          else do
            let hasError ← pyIn "error" data
            if hasError then do
              let e ← pyGetItem data "error"
              Except.error (.mcpError e)
            else sseGoS rest acc
    else sseGoS rest acc

/-- `MCPClient._parse_sse_response_sync`. -/
def parse_sse_response_sync (resp : HttpResp) : Except PyErr JVal :=
  sseGoS (strSplitNl resp.body) (.obj [])

/-- `MCPClient._send_request`: post the JSON-RPC payload, then dispatch on
the response content type — SSE bodies are scanned for the terminal
result/error, JSON bodies are decoded directly, a JSON-RPC `error` object
raises, and the `result` member (default `{}`) is returned. -/
def send_request (st : MCPState) (net : Net) (rid method : String)
    (params : Option JVal) : Except PyErr JVal :=
  match st.endpoint with
  | none => .error (.runtimeError "Not connected to MCP server")
  | some ep => do
    let resp ← net (mkPayload ep rid method params)
    if strContains (strLower resp.contentType) "text/event-stream" then
      parse_sse_response_async resp
    else
      match jsonParse resp.body with
      | none => Except.error .jsonDecodeError
      | some result => do
        let hasError ← pyIn "error" result
        if hasError then do
          let e ← pyGetItem result "error"
          Except.error (.mcpError e)
        else
          pyDictGet result "result" (.obj [])

/-- `MCPClient._send_request_sync` (sync twin, duplicated in the source). -/
def send_request_sync (st : MCPState) (net : Net) (rid method : String)
    (params : Option JVal) : Except PyErr JVal :=
  match st.endpoint with
  | none => .error (.runtimeError "Not connected to MCP server")
  | some ep => do
    let resp ← net (mkPayload ep rid method params)
    if strContains (strLower resp.contentType) "text/event-stream" then
      parse_sse_response_sync resp
    else
      match jsonParse resp.body with
      | none => Except.error .jsonDecodeError
      | some result => do
        let hasError ← pyIn "error" result
        if hasError then do
          let e ← pyGetItem result "error"
          Except.error (.mcpError e)
        else
          pyDictGet result "result" (.obj [])

/-- Convert each raw tool entry (`tool["name"]`, `.get("description", "")`,
`.get("inputSchema", {})`) into an `MCPTool`. -/
def toolsFromItems : List JVal → Except PyErr (List MCPTool)
  | [] => .ok []
  | tool :: rest => do
    let nameVal ← pyGetItem tool "name"
    let name ← match nameVal with
      | .str s => Except.ok s
      | _ => Except.error .typeError
    let descVal ← pyDictGet tool "description" (.str "")
    let desc ← match descVal with
      | .str s => Except.ok s
      | _ => Except.error .typeError
    let schemaVal ← pyDictGet tool "inputSchema" (.obj [])
    let schema ← match schemaVal with
      | .obj fields => Except.ok fields
      | _ => Except.error .typeError
    let more ← toolsFromItems rest
    .ok (⟨name, desc, schema⟩ :: more)

/-- Read the tool descriptors out of a `tools/list` result (the list
comprehension shared by `_list_tools` and `_list_tools_sync`). -/
def toolsFromResult (result : JVal) : Except PyErr (List MCPTool) := do
  let toolsVal ← pyDictGet result "tools" (.arr [])
  let items ← pyIter toolsVal
  toolsFromItems items

/-- `MCPClient._list_tools_sync`: fetch `tools/list` and parse the
descriptors. -/
def list_tools_sync (st : MCPState) (net : Net) (rid : String) :
    Except PyErr (List MCPTool) := do
  let result ← send_request_sync st net rid "tools/list" none
  toolsFromResult result

/-- `MCPClient._list_tools` (async twin). -/
def list_tools (st : MCPState) (net : Net) (rid : String) :
    Except PyErr (List MCPTool) := do
  let result ← send_request st net rid "tools/list" none
  toolsFromResult result

/-- The text parts collected from a `tools/call` content array:
`item.get("text", "")` for every item whose `type` is `"text"`. -/
def collectTextParts : List JVal → Except PyErr (List JVal)
  | [] => .ok []
  | item :: rest => do
    let ty ← pyDictGet item "type" .null
    if ty == JVal.str "text" then do
      let tx ← pyDictGet item "text" (.str "")
      let more ← collectTextParts rest
      .ok (tx :: more)
    else
      collectTextParts rest

/-- `"\n".join(text_parts)`: joins string parts, `TypeError` otherwise. -/
def joinTextParts : List JVal → Except PyErr String
  | [] => .ok ""
  | [.str s] => .ok s
  | .str s :: rest => do
    let r ← joinTextParts rest
    .ok (s ++ "\n" ++ r)
  | _ => .error .typeError

/-- `MCPClient.call_tool`: send `tools/call` with `{name, arguments}`,
concatenate the text parts of the content array (falling back to the raw
content), and propagate the `isError` flag. -/
def call_tool (st : MCPState) (net : Net) (rid : String) (name : String)
    (args : JVal) : Except PyErr MCPToolResult := do
  let result ← send_request st net rid "tools/call"
    (some (.obj [("name", .str name), ("arguments", args)]))
  let content ← pyDictGet result "content" (.arr [])
  let isErr ← pyDictGet result "isError" (.bool false)
  let items ← pyIter content
  let parts ← collectTextParts items
  if parts.isEmpty then
    .ok ⟨content, isErr⟩
  else do
    let joined ← joinTextParts parts
    .ok ⟨.str joined, isErr⟩

/-- `MCPClient.call_tool_sync` (sync twin, duplicated in the source). -/
def call_tool_sync (st : MCPState) (net : Net) (rid : String) (name : String)
    (args : JVal) : Except PyErr MCPToolResult := do
  let result ← send_request_sync st net rid "tools/call"
    (some (.obj [("name", .str name), ("arguments", args)]))
  let content ← pyDictGet result "content" (.arr [])
  let isErr ← pyDictGet result "isError" (.bool false)
  let items ← pyIter content
  let parts ← collectTextParts items
  if parts.isEmpty then
    .ok ⟨content, isErr⟩
  else do
    let joined ← joinTextParts parts
    .ok ⟨.str joined, isErr⟩

/-- The `initialize` params sent by `_initialize` / `_initialize_sync`. -/
def initParams : JVal :=
  .obj [("protocolVersion", .str "2024-11-05"),
        ("capabilities", .obj []),
        ("clientInfo", .obj [("name", .str "lumi-llm"), ("version", .str "0.1.0")])]

/-- `MCPClient.connect`: set the message endpoint and a fresh session id,
run the `initialize` handshake and the `initialized` notice, then fetch and
store the tool list. `sid` models `uuid.uuid4()`; `g` supplies the fresh
request ids. -/
def connect (st0 : MCPState) (cfg : MCPServerConfig) (sid : String)
    (g : Nat → String) (net : Net) : Except PyErr MCPState := do
  let st := { st0 with endpoint := some cfg.url, session_id := some sid }
  let _ ← send_request st net (g 0) "initialize" (some initParams)
  let _ ← send_request st net (g 1) "notifications/initialized" none
  let result ← send_request st net (g 2) "tools/list" none
  let tools ← toolsFromResult result
  .ok { st with tools := tools }

/-- `MCPClient.connect_sync` (sync twin). -/
def connect_sync (st0 : MCPState) (cfg : MCPServerConfig) (sid : String)
    (g : Nat → String) (net : Net) : Except PyErr MCPState := do
  let st := { st0 with endpoint := some cfg.url, session_id := some sid }
  let _ ← send_request_sync st net (g 0) "initialize" (some initParams)
  let _ ← send_request_sync st net (g 1) "notifications/initialized" none
  let result ← send_request_sync st net (g 2) "tools/list" none
  let tools ← toolsFromResult result
  .ok { st with tools := tools }

/-- `MCPClient.disconnect`: clear session id, endpoint and tool list. -/
def disconnect (_st : MCPState) : MCPState := ⟨none, none, []⟩

end MCP

/-! ### `lumi_llm/mcp/tool_converter.py` — schema translation -/

namespace ToolConverter

/-- The `function` member of an OpenAI-style tool entry. -/
structure OpenAIFunc where
  name : String
  description : String
  parameters : List (String × JVal)
deriving Repr

/-- An OpenAI-style tool entry `{type: "function", function: {...}}`. -/
structure OpenAITool where
  type : String
  function : OpenAIFunc
deriving Repr

/-- The default `parameters` value used when a tool declared no schema. -/
def emptyObjectSchema : List (String × JVal) :=
  [("type", .str "object"), ("properties", .obj []), ("required", .arr [])]

/-- `convert_mcp_tools_to_openai`: wrap each descriptor, defaulting the
parameters to the empty-object schema when the declared schema is falsy. -/
def convert_mcp_tools_to_openai (tools : List MCP.MCPTool) : List OpenAITool :=
  tools.map fun tool =>
    ⟨"function",
     ⟨tool.name, tool.description,
      if tool.input_schema.isEmpty then emptyObjectSchema else tool.input_schema⟩⟩

/-- A Gemini function declaration; `parameters` is present only when the
tool declared a truthy schema. -/
structure GeminiDecl where
  name : String
  description : String
  parameters : Option (List (String × JVal)) := none
deriving Repr

/-- `schema.pop(k, None)` on a unique-key dict: remove the entry for `k`. -/
def popKey (k : String) (fields : List (String × JVal)) : List (String × JVal) :=
  fields.filter fun p => p.1 ≠ k

/-- `convert_mcp_tools_to_gemini`: copy name/description; when the schema
is truthy, attach it with the `$schema` and `additionalProperties` keys
removed. -/
def convert_mcp_tools_to_gemini (tools : List MCP.MCPTool) : List GeminiDecl :=
  tools.map fun tool =>
    if tool.input_schema.isEmpty then
      ⟨tool.name, tool.description, none⟩
    else
      ⟨tool.name, tool.description,
       some (popKey "additionalProperties" (popKey "$schema" tool.input_schema))⟩

end ToolConverter

/-! ### Shared message / tool-call records

Messages are the dicts flowing between the orchestrator and the providers:
`role`, optional text `content` (`none` models Python `None`), pending
`tool_calls` for assistant messages, and `name` / `tool_call_id` for tool
messages. Argument mappings are carried opaquely as their string rendering
— the orchestrator and converters only ever pass them through. -/

/-- A parsed tool invocation (`ToolCall` in `providers/base.py`). -/
structure ToolCallRec where
  id : String
  name : String
  arguments : String
deriving Repr, DecidableEq

/-- A conversation message dict. -/
structure Message where
  role : String
  content : Option String := none
  tool_calls : List ToolCallRec := []
  name : Option String := none
  tool_call_id : Option String := none
deriving Repr, DecidableEq

/-! ### `lumi_llm/providers/gemini.py` — message/request conversion -/

namespace Gemini

/-- A part of a Gemini content entry. -/
inductive GPart where
  | text (s : String)
  | functionCall (name : String) (args : String)
  | functionResponse (name : String) (result : Option String)
deriving Repr, DecidableEq

/-- A Gemini `contents` entry. `parts = none` models the code path that
passes a non-string `content` value straight through for user messages. -/
structure GContent where
  role : String
  parts : Option (List GPart)
deriving Repr, DecidableEq

/-- The loop body of `GeminiProvider._convert_messages_to_gemini`,
accumulating the contents list and the (last-wins) system instruction. -/
def convertGo : List Message → List GContent → Option String → List GContent × Option String
  | [], contents, instr => (contents, instr)
  | msg :: rest, contents, instr =>
    let content := msg.content
    if msg.role = "system" then
      convertGo rest contents content
    else if msg.role = "user" then
      convertGo rest
        (contents ++ [⟨"user", match content with
                               | some s => some [.text s]
                               | none => none⟩])
        instr
    else if msg.role = "assistant" then
      let textParts : List GPart := match content with
        | some s => if s ≠ "" then [.text s] else []
        | none => []
      let parts := textParts ++ msg.tool_calls.map fun tc => GPart.functionCall tc.name tc.arguments
      convertGo rest (contents ++ [⟨"model", some parts⟩]) instr
    else if msg.role = "tool" then
      convertGo rest
        (contents ++ [⟨"user", some [.functionResponse (msg.name.getD "") content]⟩])
        instr
    else
      convertGo rest contents instr

/-- `GeminiProvider._convert_messages_to_gemini`: returns the Gemini
contents list and the system instruction (or `none`). -/
def convert_messages_to_gemini (msgs : List Message) : List GContent × Option String :=
  convertGo msgs [] none

/-- `LLMConfig` from `lumi_llm/config/settings.py`. The float-valued
fields are never computed with — only copied into request bodies — so they
are carried as rationals. -/
structure LLMConfig where
  url : String
  scope : List String := []
  temperature : Rat := 1 / 2
  top_k : Option Int := none
  top_p : Option Rat := none
  max_tokens : Int := 1024
  verify_ssl : Bool := true

/-- The per-call `**kwargs` overrides consulted by `_build_request_body`. -/
structure GenKwargs where
  temperature : Option Rat := none
  max_tokens : Option Int := none
  top_k : Option Int := none
  top_p : Option Rat := none

/-- A tool definition handed to the provider: either an OpenAI-style entry
(`"function" in tool`) or a raw function dict. -/
inductive ProviderToolInput where
  | openaiStyle (t : ToolConverter.OpenAITool)
  | rawFunc (name : String) (description : Option String)
      (parameters : Option (List (String × JVal)))

/-- A Gemini function declaration produced by
`GeminiProvider._convert_tools_to_gemini`. -/
structure GeminiFuncDecl where
  name : String
  description : String
  parameters : Option (List (String × JVal)) := none

/-- `GeminiProvider._convert_tools_to_gemini`: `None` for a falsy tool
list, otherwise the declarations of the single `functionDeclarations`
wrapper. -/
def convert_tools_to_gemini (tools : Option (List ProviderToolInput)) :
    Option (List GeminiFuncDecl) :=
  match tools with
  | none => none
  | some ts =>
    if ts.isEmpty then none
    else some (ts.map fun t =>
      match t with
      | .openaiStyle o => ⟨o.function.name, o.function.description, some o.function.parameters⟩
      | .rawFunc n d p => ⟨n, d.getD "", p⟩)

/-- The `generationConfig` member of a Gemini request body. -/
structure GenerationConfig where
  temperature : Rat
  maxOutputTokens : Int
  topK : Option Int := none
  topP : Option Rat := none

/-- The Gemini request body built by `_build_request_body`:
`systemInstruction` is `{"parts": [{"text": s}]}` when present. -/
structure GeminiBody where
  contents : List GContent
  generationConfig : GenerationConfig
  systemInstruction : Option (List GPart) := none
  tools : Option (List GeminiFuncDecl) := none

/-- `GeminiProvider._build_request_body`: convert the messages, resolve
generation parameters (per-call overrides win; `topK`/`topP` only when the
configured value is truthy), attach the system instruction when truthy and
the converted tools when any. -/
def build_request_body (cfg : LLMConfig) (msgs : List Message)
    (tools : Option (List ProviderToolInput)) (kw : GenKwargs) : GeminiBody :=
  let conv := convert_messages_to_gemini msgs
  { contents := conv.1,
    generationConfig :=
      { temperature := kw.temperature.getD cfg.temperature,
        maxOutputTokens := kw.max_tokens.getD cfg.max_tokens,
        topK := match cfg.top_k with
          | some k => if k ≠ 0 then some (kw.top_k.getD k) else none
          | none => none,
        topP := match cfg.top_p with
          | some p => if p ≠ 0 then some (kw.top_p.getD p) else none
          | none => none },
    systemInstruction := match conv.2 with
      | some s => if s ≠ "" then some [GPart.text s] else none
      | none => none,
    tools := convert_tools_to_gemini tools }

end Gemini

/-! ### `lumi_llm/agents/tool_agent.py` — the ReAct orchestrator loop

The LangGraph graph wires `llm → (should_continue) → tools → llm → …`,
ending in `finalize`. The state dict is `AgentState`; the `add_messages`
reducer appends the message lists returned by the nodes. The LLM provider
is a deterministic stub from the conversation to a response (the converted
tool declarations are fixed at construction time and closed over by the
stub); the tool client is an oracle from tool name and arguments to a
result — the orchestrator consumes only `str(result.content)` and the
truthiness of `result.is_error`, which the oracle supplies directly. -/

namespace Agent

/-- `ThinkingType` enumeration. -/
inductive ThinkingType where
  | reasoning
  | tool_call
  | tool_result
  | final_answer
  | error
deriving Repr, DecidableEq

/-- A `ThinkingEvent`: type, display content, and the metadata entries the
agent actually writes (`tool_name`, `arguments`). -/
structure ThinkingEvent where
  type : ThinkingType
  content : String
  tool_name : Option String := none
  arguments : Option String := none
deriving Repr, DecidableEq

/-- `LLMResponse` as consumed by the agent: optional text and parsed tool
calls. -/
structure LLMResponse where
  content : Option String := none
  tool_calls : List ToolCallRec := []
deriving Repr, DecidableEq

/-- An LLM provider stub: a deterministic function from the conversation to
a response. -/
def Provider := List Message → LLMResponse

/-- What the orchestrator reads off a tool call's outcome:
`str(result.content)` and the truthiness of `result.is_error`. -/
structure ToolResult where
  content : String
  is_error : Bool
deriving Repr, DecidableEq

/-- The tool client as an oracle from tool name and arguments; `.error`
models an exception raised while invoking the tool. -/
def ToolOracle := String → String → Except PyErr ToolResult

/-- The LangGraph `AgentState`. -/
structure AgentState where
  messages : List Message
  thinking_events : List ThinkingEvent
  tool_calls_made : Nat
  final_answer : Option String := none
deriving Repr, DecidableEq

/-- A fresh system message carrying the configured prompt. -/
def systemMessage (sysPrompt : String) : Message :=
  ⟨"system", some sysPrompt, [], none, none⟩

/-- The `call_llm` node: prepend the system prompt to the conversation fed
to the provider when absent (the prepended copy is not persisted), call the
provider, append the new assistant message, and emit `tool_call` events per
requested invocation or a `reasoning` event for truthy plain content. -/
def call_llm (P : Provider) (sysPrompt : String) (st : AgentState) : AgentState :=
  let fed := match st.messages with
    | [] => [systemMessage sysPrompt]
    | m :: rest => if m.role ≠ "system" then systemMessage sysPrompt :: m :: rest else m :: rest
  let resp := P fed
  let newMsg : Message := ⟨"assistant", resp.content, resp.tool_calls, none, none⟩
  let evs : List ThinkingEvent :=
    if !resp.tool_calls.isEmpty then
      resp.tool_calls.map fun tc =>
        ⟨.tool_call, "Calling tool with arguments:\n```json\n" ++ tc.arguments ++ "\n```",
         some tc.name, some tc.arguments⟩
    else
      match resp.content with
      | some s => if s ≠ "" then [⟨.reasoning, s, none, none⟩] else []
      | none => []
  { st with
    messages := st.messages ++ [newMsg],
    thinking_events := st.thinking_events ++ evs }

/-- `result_content` as computed in `execute_tools`: the raw text, prefixed
with `"Error: "` when the result is error-flagged. -/
def toolResultContent (r : ToolResult) : String :=
  if r.is_error then "Error: " ++ r.content else r.content

/-- The display truncation applied to successful tool-result events:
at most 500 characters plus an ellipsis marker. -/
def truncateForDisplay (s : String) : String :=
  if 500 < s.length then s.take 500 ++ "..." else s

/-- The thinking event emitted for one tool call's outcome: an `error`
event with the full error text, or a `tool_result` event with the display
truncation applied. -/
def toolEvent (toolName : String) (r : ToolResult) : ThinkingEvent :=
  if r.is_error then
    ⟨.error, toolResultContent r, some toolName, none⟩
  else
    ⟨.tool_result, truncateForDisplay (toolResultContent r), some toolName, none⟩

/-- The tool-role message appended for one tool call's outcome; its content
is the full (untruncated) `result_content`. -/
def toolMessage (tc : ToolCallRec) (r : ToolResult) : Message :=
  ⟨"tool", some (toolResultContent r), [], some tc.name, some tc.id⟩

/-- The `for tc in tool_calls` body of `execute_tools`, processed in order:
each call consults the oracle (an exception aborts the whole node), emits
its event, appends its tool message, and increments the counter. -/
def runToolCalls (O : ToolOracle) :
    List ToolCallRec → Except PyErr (List ThinkingEvent × List Message × Nat)
  | [] => .ok ([], [], 0)
  | tc :: rest => do
    let r ← O tc.name tc.arguments
    let (evs, msgs, n) ← runToolCalls O rest
    .ok (toolEvent tc.name r :: evs, toolMessage tc r :: msgs, n + 1)

/-- The `execute_tools` node: run every tool call of the last message,
append the produced tool messages and events, and add the number of calls
made to the counter. -/
def execute_tools (O : ToolOracle) (st : AgentState) : Except PyErr AgentState :=
  match st.messages.getLast? with
  | none => .error .indexError
  | some last => do
    let (evs, msgs, n) ← runToolCalls O last.tool_calls
    .ok { st with
      messages := st.messages ++ msgs,
      thinking_events := st.thinking_events ++ evs,
      tool_calls_made := st.tool_calls_made + n }

/-- The two conditional-edge targets of `should_continue`. -/
inductive Route where
  | tools
  | finish
deriving Repr, DecidableEq

/-- `should_continue`: end once `tool_calls_made >= max_tool_calls`;
otherwise route to the tools node exactly when the last message carries
tool calls. -/
def should_continue (maxTC : Nat) (st : AgentState) : Except PyErr Route :=
  match st.messages.getLast? with
  | none => .error .indexError
  | some last =>
    if maxTC ≤ st.tool_calls_made then .ok .finish
    else if !last.tool_calls.isEmpty then .ok .tools
    else .ok .finish

/-- The `finalize` node: record the last message's content as the final
answer, emitting a `final_answer` event when it is truthy. -/
def finalize (st : AgentState) : Except PyErr AgentState :=
  match st.messages.getLast? with
  | none => .error .indexError
  | some last =>
    let evs : List ThinkingEvent := match last.content with
      | some s => if s ≠ "" then [⟨.final_answer, s, none, none⟩] else []
      | none => []
    .ok { st with
      final_answer := last.content,
      thinking_events := st.thinking_events ++ evs }

/-- The compiled graph's loop: `llm`, then either `finalize` (terminal) or
`tools` followed by `llm` again. `fuel` bounds the number of passes through
the tools node; `.ok none` reports fuel exhaustion (never reached from
sufficient fuel, as proved below). -/
def runLoop (P : Provider) (O : ToolOracle) (sysPrompt : String) (maxTC : Nat) :
    Nat → AgentState → Except PyErr (Option AgentState)
  | fuel, st =>
    let st1 := call_llm P sysPrompt st
    match should_continue maxTC st1 with
    | .error e => .error e
    | .ok .finish =>
      match finalize st1 with
      | .error e => .error e
      | .ok st2 => .ok (some st2)
    | .ok .tools =>
      match fuel with
      | 0 => .ok none
      | f + 1 =>
        match execute_tools O st1 with
        | .error e => .error e
        | .ok st2 => runLoop P O sysPrompt maxTC f st2

/-- The initial state built by `run_agent` for a user query. -/
def initialState (query : String) : AgentState :=
  ⟨[⟨"user", some query, [], none, none⟩], [], 0, none⟩

end Agent

/-! ## Claim theorems -/

/-! ### Fixtures: concrete configurations, oracles and states used by the
closed evaluation theorems and witnesses. -/

/-- A concrete `IdaaSConfig` with the declared defaults. -/
def idaasFixCfg : IdaaSConfig := ⟨"app", "2", "https://id.example/token", "sec", 60, true⟩

/-- An identity endpoint returning a well-formed token response that
carries `expires_in`. -/
def idaasFixNet : IdaaS.IdentityNet := fun _ =>
  .ok (.obj [("access_token", .str "tok2"), ("token_type", .str "Bearer"),
             ("expires_in", .num 3600)])

/-- An identity endpoint whose response omits `expires_in`. -/
def idaasFixNetNoExp : IdaaS.IdentityNet := fun _ =>
  .ok (.obj [("access_token", .str "tok2"), ("token_type", .str "Bearer")])

/-- A cached token that is valid until instant 1000. -/
def idaasFixTok : IdaaS.TokenInfo := ⟨"tok", "Bearer", 1000, .null⟩

/-- Claim C4: the spec says a token response that omits `expires_in` is
parsed successfully, with the expiry taken from the configuration-declared
lifetime, and the access token returned with no error. The code instead
reads `self.config.token_refresh_interval` — an attribute `IdaaSConfig`
does not declare (it declares `token_refresh_time`) — and, because Python
evaluates the `.get` default eagerly, `_parse_token_response` raises
`AttributeError` on every response, with or without `expires_in`. This
contradicts the repository's own token test (`examples/test_1_token.py`
asserts `get_token_sync` succeeds), so the claim is right and the code has
a slipped attribute name. -/
theorem C4_parse_token_response_raises :
    IdaaS.parse_token_response idaasFixCfg 0 (.obj [("access_token", .str "tok2")])
      = .error (.attributeError "token_refresh_interval")
    ∧ IdaaS.parse_token_response idaasFixCfg 0
        (.obj [("access_token", .str "tok2"), ("expires_in", .num 3600)])
      = .error (.attributeError "token_refresh_interval")
    ∧ idaasFixCfg.attr "token_refresh_time" = some (.int 60)
    ∧ idaasFixCfg.attr "token_refresh_interval" = none := by
  exact ⟨rfl, rfl, rfl, rfl⟩

/-- Claim C5: the spec's token-reuse property. The cache-hit path does
return the identical cached credential with zero fetches, and
`clear_token` does force the next call onto the fetch path — but a fresh
acquisition can never complete: with the default `scope=None` argument the
call raises `AttributeError` (`config.scope` is not a declared field)
before any fetch, and with an explicit scope the single fetch happens and
then `_parse_token_response` raises (`config.token_refresh_interval`, see
C4). So the claimed "exactly one network fetch then identical credentials"
sequence is unachievable; the repository's own test
(`examples/test_1_token.py`) expects it to work, so this is a code slip,
not a spec error. -/
theorem C5_token_cache_eval :
    IdaaS.get_token_sync idaasFixCfg idaasFixNet 0 0 none (some idaasFixTok)
      = (.ok "tok", some idaasFixTok, 0)
    ∧ IdaaS.get_token_sync idaasFixCfg idaasFixNet 0 0 none none
      = (.error (.attributeError "scope"), none, 0)
    ∧ IdaaS.get_token_sync idaasFixCfg idaasFixNet 0 0 (some ["s"]) none
      = (.error (.attributeError "token_refresh_interval"), none, 1)
    ∧ IdaaS.get_token_sync idaasFixCfg idaasFixNet 0 0 (some ["s"])
        (IdaaS.clear_token (some idaasFixTok))
      = (.error (.attributeError "token_refresh_interval"), none, 1) := by
  exact ⟨rfl, rfl, rfl, rfl⟩

/-- Claim C3, counterexample: the claim says an OAuth2 client-credentials
form-body request is one of two schemes `get_token` / `get_token_sync`
perform, selected by configuration. No configuration, timestamp or body
makes the client post a form-encoded `grant_type=client_credentials`
request: the request it builds always has a JSON body. -/
theorem C3_no_oauth2_request :
    (∃ (cfg : IdaaSConfig) (ts : Nat) (b : IdaaS.TokenReqBody),
        IdaaS.isOAuth2ClientCredentialsRequest (IdaaS.tokenRequest cfg ts b) = true) = False := by
  apply eq_false
  rintro ⟨cfg, ts, b, h⟩
  simp [IdaaS.isOAuth2ClientCredentialsRequest, IdaaS.tokenRequest] at h

/-- Claim C3, amended: the token cache implements exactly one
authentication scheme — every request `get_token_sync` / `get_token` posts
carries the X-Auth headers (`X-Auth-AppID`, base64url-without-padding
HMAC-SHA256 signature of `app_id ++ millisecond_timestamp` keyed by the
secret, protocol version "2", and the timestamp) with a JSON body carrying
only the scope; no OAuth2 client-credentials form request exists and no
configuration field selects a scheme. -/
theorem C3_signature_scheme_only :
    ∀ (cfg : IdaaSConfig) (ts : Nat) (b : IdaaS.TokenReqBody),
    (IdaaS.tokenRequest cfg ts b).headers = IdaaS.get_auth_headers cfg ts
    ∧ (IdaaS.tokenRequest cfg ts b).headers.lookup "X-Auth-Signature"
        = some (b64UrlNoPad (hmacSha256 (utf8Bytes cfg.secret) (utf8Bytes (cfg.id ++ toString ts))))
    ∧ (IdaaS.tokenRequest cfg ts b).headers.lookup "X-Auth-AppID" = some cfg.id
    ∧ (IdaaS.tokenRequest cfg ts b).headers.lookup "X-Auth-Version" = some "2"
    ∧ (IdaaS.tokenRequest cfg ts b).headers.lookup "X-Auth-Timestamp" = some (toString ts)
    ∧ (IdaaS.tokenRequest cfg ts b).body = .jsonScope b
    ∧ IdaaS.isOAuth2ClientCredentialsRequest (IdaaS.tokenRequest cfg ts b) = false := by
  intro cfg ts b
  refine ⟨rfl, ?_, ?_, ?_, ?_, rfl, rfl⟩ <;>
    simp [IdaaS.tokenRequest, IdaaS.get_auth_headers, List.lookup,
      IdaaS.generate_signature]

/-- Removing the `$schema` key and then the `additionalProperties` key is
the same as filtering both keys out at once. -/
theorem popKey_pair (s : List (String × JVal)) :
    ToolConverter.popKey "additionalProperties" (ToolConverter.popKey "$schema" s)
      = s.filter fun p => decide (p.1 ≠ "$schema" ∧ p.1 ≠ "additionalProperties") := by
  induction s with
  | nil => rfl
  | cons p rest ih =>
    by_cases h1 : p.1 = "$schema" <;> by_cases h2 : p.1 = "additionalProperties" <;>
      simp [ToolConverter.popKey, h1, h2] at ih ⊢ <;> exact ih

/-- Claim C6: translating Tool Descriptors to OpenAI format preserves name
and description (extractable from the result), and its `parameters` field
is the declared schema, or the empty-object schema for a tool with no
declared schema; translating to Gemini format also preserves name and
description, and for a non-empty schema its `parameters` is exactly the
schema with the `$schema` and `additionalProperties` keys removed and
every other entry kept unchanged. -/
theorem C6_schema_translation :
    ∀ (tools : List MCP.MCPTool),
    ((ToolConverter.convert_mcp_tools_to_openai tools).map fun t =>
        (t.function.name, t.function.description))
      = tools.map (fun t => (t.name, t.description))
    ∧ ((ToolConverter.convert_mcp_tools_to_gemini tools).map fun d => (d.name, d.description))
      = tools.map (fun t => (t.name, t.description))
    ∧ ((ToolConverter.convert_mcp_tools_to_openai tools).map fun t => t.function.parameters)
      = tools.map (fun t =>
          if t.input_schema.isEmpty then ToolConverter.emptyObjectSchema else t.input_schema)
    ∧ ((ToolConverter.convert_mcp_tools_to_gemini tools).map fun d => d.parameters)
      = tools.map (fun t =>
          if t.input_schema.isEmpty then none
          else some (t.input_schema.filter fun p =>
            decide (p.1 ≠ "$schema" ∧ p.1 ≠ "additionalProperties"))) := by
  intro tools
  refine ⟨?_, ?_, ?_, ?_⟩ <;>
    induction tools with
    | nil => rfl
    | cons t rest ih =>
      by_cases h : t.input_schema.isEmpty <;>
        (simp [ToolConverter.convert_mcp_tools_to_openai,
           ToolConverter.convert_mcp_tools_to_gemini, h, popKey_pair] at ih ⊢ <;>
         try exact ih)

/-- A connected client state for the SSE scenario. -/
def sseFixSt : MCP.MCPState := ⟨some "http://srv/mcp", some "sid", []⟩

/-- The SSE body of the spec scenario: a `data:` line carrying the
JSON-RPC result with an empty tool list. -/
def sseFixBody : String :=
  "data: \x7b\"jsonrpc\":\"2.0\",\"id\":\"x\",\"result\":\x7b\"tools\":[]\x7d\x7d\n\n"

/-- An SSE body whose `data:` line carries a JSON-RPC error object. -/
def sseFixErrBody : String :=
  "data: \x7b\"jsonrpc\":\"2.0\",\"id\":\"x\",\"error\":\x7b\"code\":-32600,\"message\":\"bad\"\x7d\x7d\n\n"

/-- A tool server answering with the SSE-framed empty tool list. -/
def sseFixNet : MCP.Net := fun _ => .ok ⟨"text/event-stream", sseFixBody⟩

/-- A tool server answering with the SSE-framed JSON-RPC error. -/
def sseFixNetErr : MCP.Net := fun _ => .ok ⟨"text/event-stream", sseFixErrBody⟩

/-- Claim C8: a tool server response with content type
`text/event-stream` whose `data:` line carries the JSON-RPC result
`{"tools": []}` is parsed by the `tools/list` handling into an empty tool
list with no error, while a `data:` line carrying a JSON-RPC `error`
object raises a protocol error instead. -/
theorem C8_sse_tools_list :
    MCP.list_tools_sync sseFixSt sseFixNet "rid1" = .ok []
    ∧ MCP.list_tools_sync sseFixSt sseFixNetErr "rid1"
        = .error (.mcpError (.obj [("code", .num (-32600)), ("message", .str "bad")])) := by
  exact ⟨rfl, rfl⟩

/-- The duplicated async/sync SSE line scans agree on every input. -/
theorem sseGo_eq (ls : List String) : ∀ acc, MCP.sseGoA ls acc = MCP.sseGoS ls acc := by
  induction ls with
  | nil => intro acc; rfl
  | cons l rest ih =>
    intro acc
    simp only [MCP.sseGoA, MCP.sseGoS]
    repeat' split <;> simp [ih]

/-- The duplicated async/sync request paths agree on every input. -/
theorem send_request_eq (st : MCP.MCPState) (net : MCP.Net) (rid method : String)
    (params : Option JVal) :
    MCP.send_request st net rid method params
      = MCP.send_request_sync st net rid method params := by
  unfold MCP.send_request MCP.send_request_sync
  cases st.endpoint with
  | none => rfl
  | some ep =>
    simp only [bind, Except.bind]
    cases net (MCP.mkPayload ep rid method params) with
    | error e => rfl
    | ok resp =>
      simp only [MCP.parse_sse_response_async, MCP.parse_sse_response_sync]
      split
      · exact sseGo_eq _ _
      · rfl

/-- Claim C9: the synchronous and asynchronous MCP client surfaces are
behaviorally identical aside from blocking semantics — for every
connection state, server behavior, request id supply, tool name and
argument mapping, the SSE parsing, request sending, tool listing, tool
calling and connect paths of the two surfaces produce identical results
(same content, same error flag, errors under the same conditions). -/
theorem C9_sync_async_equivalence :
    (∀ (resp : MCP.HttpResp),
      MCP.parse_sse_response_async resp = MCP.parse_sse_response_sync resp)
    ∧ (∀ (st : MCP.MCPState) (net : MCP.Net) (rid method : String) (params : Option JVal),
      MCP.send_request st net rid method params
        = MCP.send_request_sync st net rid method params)
    ∧ (∀ (st : MCP.MCPState) (net : MCP.Net) (rid : String),
      MCP.list_tools st net rid = MCP.list_tools_sync st net rid)
    ∧ (∀ (st : MCP.MCPState) (net : MCP.Net) (rid name : String) (args : JVal),
      MCP.call_tool st net rid name args = MCP.call_tool_sync st net rid name args)
    ∧ (∀ (st0 : MCP.MCPState) (cfg : MCP.MCPServerConfig) (sid : String)
        (g : Nat → String) (net : MCP.Net),
      MCP.connect st0 cfg sid g net = MCP.connect_sync st0 cfg sid g net) := by
  refine ⟨fun resp => sseGo_eq _ _, send_request_eq, ?_, ?_, ?_⟩
  · intro st net rid
    unfold MCP.list_tools MCP.list_tools_sync
    rw [send_request_eq]
  · intro st net rid name args
    unfold MCP.call_tool MCP.call_tool_sync
    rw [send_request_eq]
  · intro st0 cfg sid g net
    unfold MCP.connect MCP.connect_sync
    simp only [send_request_eq]

/-- `getLast?` of a cons in terms of the tail. -/
theorem getLast?_cons_eq {α : Type} (a : α) (l : List α) :
    (a :: l).getLast? = some (l.getLast?.getD a) := by
  induction l generalizing a with
  | nil => rfl
  | cons b t ih => simp [List.getLast?_cons_cons, ih]

/-- The contents entries one message contributes in
`_convert_messages_to_gemini` (empty for system and unknown roles). -/
def gemStepEntries (m : Message) : List Gemini.GContent :=
  if m.role = "system" then []
  else if m.role = "user" then
    [⟨"user", match m.content with
              | some s => some [.text s]
              | none => none⟩]
  else if m.role = "assistant" then
    [⟨"model",
      some ((match m.content with
             | some s => if s ≠ "" then [Gemini.GPart.text s] else []
             | none => []) ++
            m.tool_calls.map fun tc => Gemini.GPart.functionCall tc.name tc.arguments)⟩]
  else if m.role = "tool" then
    [⟨"user", some [.functionResponse (m.name.getD "") m.content]⟩]
  else []

/-- One step of the conversion fold: append the message's entries and apply
last-wins to the system instruction. -/
theorem convertGo_cons (m : Message) (rest : List Message)
    (cont : List Gemini.GContent) (instr : Option String) :
    Gemini.convertGo (m :: rest) cont instr
      = Gemini.convertGo rest (cont ++ gemStepEntries m)
          (if m.role = "system" then m.content else instr) := by
  by_cases h1 : m.role = "system"
  · simp [Gemini.convertGo, gemStepEntries, h1]
  · by_cases h2 : m.role = "user"
    · simp [Gemini.convertGo, gemStepEntries, h1, h2]
    · by_cases h3 : m.role = "assistant"
      · simp [Gemini.convertGo, gemStepEntries, h1, h2, h3]
      · by_cases h4 : m.role = "tool"
        · simp [Gemini.convertGo, gemStepEntries, h1, h2, h3, h4]
        · simp [Gemini.convertGo, gemStepEntries, h1, h2, h3, h4]

/-- Every entry a message contributes has role `"user"` or `"model"`. -/
theorem gemStepEntries_roles (m : Message) (c : Gemini.GContent)
    (hc : c ∈ gemStepEntries m) : c.role = "user" ∨ c.role = "model" := by
  unfold gemStepEntries at hc
  split_ifs at hc <;> simp at hc <;> subst hc <;> simp

/-- The system instruction computed by the conversion fold is the content
of the last system message, defaulting to the accumulator. -/
theorem convertGo_instr (msgs : List Message) :
    ∀ (cont : List Gemini.GContent) (instr : Option String),
    (Gemini.convertGo msgs cont instr).2
      = ((msgs.filter fun x => x.role = "system").getLast?).elim instr (fun m => m.content) := by
  induction msgs with
  | nil => intro cont instr; simp [Gemini.convertGo]
  | cons m rest ih =>
    intro cont instr
    rw [convertGo_cons, ih]
    by_cases h : m.role = "system"
    · rw [if_pos h]
      have hfil : List.filter (fun x => decide (x.role = "system")) (m :: rest)
          = m :: List.filter (fun x => decide (x.role = "system")) rest := by
        simp [List.filter_cons, h]
      rw [hfil, getLast?_cons_eq]
      cases hl : (List.filter (fun x => decide (x.role = "system")) rest).getLast? <;>
        simp [hl]
    · simp [List.filter_cons, h]

/-- No entry of the converted contents list carries the system role. -/
theorem convertGo_roles (msgs : List Message) :
    ∀ (cont : List Gemini.GContent) (instr : Option String),
    (∀ c ∈ cont, c.role = "user" ∨ c.role = "model") →
    ∀ c ∈ (Gemini.convertGo msgs cont instr).1, c.role = "user" ∨ c.role = "model" := by
  induction msgs with
  | nil =>
    intro cont instr h c hc
    simp only [Gemini.convertGo] at hc
    exact h c hc
  | cons m rest ih =>
    intro cont instr h c hc
    rw [convertGo_cons] at hc
    refine ih _ _ ?_ c hc
    intro c' hc'
    rcases List.mem_append.mp hc' with h1 | h2
    · exact h c' h1
    · exact gemStepEntries_roles m c' h2

/-- Claim C10: for every message list containing system-role messages, the
content of the LAST system message becomes the provider-level system
instruction (earlier system messages are silently discarded), no system
message ever appears in the contents list sent to the provider, and the
request body carries exactly that contents list, with the instruction
wrapped as `{"parts": [{"text": ...}]}` when it is truthy. -/
theorem C10_gemini_system_message_handling :
    ∀ (msgs : List Message) (m : Message) (cfg : Gemini.LLMConfig)
      (tools : Option (List Gemini.ProviderToolInput)) (kw : Gemini.GenKwargs),
    (msgs.filter fun x => x.role = "system").getLast? = some m →
    (Gemini.convert_messages_to_gemini msgs).2 = m.content
    ∧ (∀ c ∈ (Gemini.convert_messages_to_gemini msgs).1,
        c.role = "user" ∨ c.role = "model")
    ∧ (Gemini.build_request_body cfg msgs tools kw).contents
        = (Gemini.convert_messages_to_gemini msgs).1
    ∧ (∀ s, m.content = some s → s ≠ "" →
        (Gemini.build_request_body cfg msgs tools kw).systemInstruction
          = some [Gemini.GPart.text s]) := by
  intro msgs m cfg tools kw hlast
  have hinstr : (Gemini.convert_messages_to_gemini msgs).2 = m.content := by
    unfold Gemini.convert_messages_to_gemini
    rw [convertGo_instr, hlast]
    rfl
  refine ⟨hinstr, ?_, rfl, ?_⟩
  · intro c hc
    exact convertGo_roles msgs [] none (by intro c' hc'; simp at hc') c hc
  · intro s hs hne
    unfold Gemini.build_request_body
    simp only [hinstr, hs, hne]
    simp [hne]

/-- Fixture conversation for the C10 witness: two system messages around a
user turn. -/
def gemFixMsgs : List Message :=
  [⟨"system", some "first", [], none, none⟩,
   ⟨"user", some "u", [], none, none⟩,
   ⟨"system", some "second", [], none, none⟩]

/-- The last system message of `gemFixMsgs`. -/
def gemFixM : Message := ⟨"system", some "second", [], none, none⟩

/-- Fixture provider configuration. -/
def gemFixCfg : Gemini.LLMConfig := ⟨"https://llm.example", [], 1 / 2, none, none, 1024, true⟩

/-- Witness for C10 at a concrete conversation with two system messages:
the second system message wins, no system entry reaches the contents, and
the body carries it as the system instruction. -/
theorem C10_witness :
    (Gemini.convert_messages_to_gemini gemFixMsgs).2 = some "second"
    ∧ (∀ c ∈ (Gemini.convert_messages_to_gemini gemFixMsgs).1,
        c.role = "user" ∨ c.role = "model")
    ∧ (Gemini.build_request_body gemFixCfg gemFixMsgs none ⟨none, none, none, none⟩).contents
        = (Gemini.convert_messages_to_gemini gemFixMsgs).1
    ∧ (Gemini.build_request_body gemFixCfg gemFixMsgs none ⟨none, none, none, none⟩).systemInstruction
        = some [Gemini.GPart.text "second"] := by
  have h := C10_gemini_system_message_handling gemFixMsgs gemFixM gemFixCfg none
    ⟨none, none, none, none⟩ rfl
  exact ⟨h.1, h.2.1, h.2.2.1, h.2.2.2 "second" rfl (by decide)⟩

/-! ### Orchestrator lemmas -/

/-- When the oracle answers every call of the batch, `runToolCalls` yields
the per-call events and tool messages in order, and counts one per call. -/
theorem runToolCalls_ok (O : Agent.ToolOracle) (f : ToolCallRec → Agent.ToolResult) :
    ∀ (tcs : List ToolCallRec),
    (∀ tc ∈ tcs, O tc.name tc.arguments = .ok (f tc)) →
    Agent.runToolCalls O tcs
      = .ok (tcs.map fun tc => Agent.toolEvent tc.name (f tc),
             tcs.map fun tc => Agent.toolMessage tc (f tc),
             tcs.length) := by
  intro tcs
  induction tcs with
  | nil => intro _; rfl
  | cons tc rest ih =>
    intro h
    have htc := h tc (List.mem_cons_self tc rest)
    have hrest := ih fun x hx => h x (List.mem_cons_of_mem tc hx)
    simp only [Agent.runToolCalls, htc, hrest]
    rfl

/-- When the oracle answers every call of the last message,
`execute_tools` succeeds and appends exactly the per-call tool messages and
events, counting one per call. -/
theorem execute_tools_ok (O : Agent.ToolOracle) (f : ToolCallRec → Agent.ToolResult)
    (st : Agent.AgentState) (last : Message)
    (hlast : st.messages.getLast? = some last)
    (hok : ∀ tc ∈ last.tool_calls, O tc.name tc.arguments = .ok (f tc)) :
    Agent.execute_tools O st
      = .ok { st with
          messages := st.messages ++ last.tool_calls.map fun tc => Agent.toolMessage tc (f tc),
          thinking_events := st.thinking_events
            ++ last.tool_calls.map fun tc => Agent.toolEvent tc.name (f tc),
          tool_calls_made := st.tool_calls_made + last.tool_calls.length } := by
  unfold Agent.execute_tools
  rw [hlast]
  simp [runToolCalls_ok O f last.tool_calls hok]
  rfl

/-- Claim C7: for every batch of successfully executed tool invocations,
the `tool_result` Thinking Event for each invocation carries the result
text truncated to 500 characters with an `"..."` marker when longer, while
the tool-role message appended to the Conversation for the same invocation
carries the full untruncated result text — truncation affects only the
event, never the conversation. -/
theorem C7_truncation_is_display_only :
    ∀ (O : Agent.ToolOracle) (f : ToolCallRec → Agent.ToolResult)
      (st : Agent.AgentState) (last : Message),
    st.messages.getLast? = some last →
    (∀ tc ∈ last.tool_calls,
      O tc.name tc.arguments = .ok (f tc) ∧ (f tc).is_error = false) →
    Agent.execute_tools O st
      = .ok { st with
          messages := st.messages ++ last.tool_calls.map fun tc =>
            ⟨"tool", some ((f tc).content), [], some tc.name, some tc.id⟩,
          thinking_events := st.thinking_events ++ last.tool_calls.map fun tc =>
            ⟨.tool_result,
             if 500 < (f tc).content.length
               then (f tc).content.take 500 ++ "..."
               else (f tc).content,
             some tc.name, none⟩,
          tool_calls_made := st.tool_calls_made + last.tool_calls.length } := by
  intro O f st last hlast hok
  rw [execute_tools_ok O f st last hlast fun tc htc => (hok tc htc).1]
  have hmsg : (last.tool_calls.map fun tc => Agent.toolMessage tc (f tc))
      = last.tool_calls.map fun tc =>
          (⟨"tool", some ((f tc).content), [], some tc.name, some tc.id⟩ : Message) := by
    refine List.map_congr_left fun tc htc => ?_
    simp [Agent.toolMessage, Agent.toolResultContent, (hok tc htc).2]
  have hev : (last.tool_calls.map fun tc => Agent.toolEvent tc.name (f tc))
      = last.tool_calls.map fun tc =>
          (⟨.tool_result,
            if 500 < (f tc).content.length
              then (f tc).content.take 500 ++ "..."
              else (f tc).content,
            some tc.name, none⟩ : Agent.ThinkingEvent) := by
    refine List.map_congr_left fun tc htc => ?_
    simp [Agent.toolEvent, Agent.toolResultContent, Agent.truncateForDisplay, (hok tc htc).2]
  rw [hmsg, hev]

/-- The conversation fed to the provider by `call_llm`: the configured
system prompt is prepended when the first message is not a system one. -/
def Agent.fedMessages (sysPrompt : String) (msgs : List Message) : List Message :=
  match msgs with
  | [] => [Agent.systemMessage sysPrompt]
  | m :: rest =>
    if m.role ≠ "system" then Agent.systemMessage sysPrompt :: m :: rest else m :: rest

/-- The assistant message `call_llm` appends for a provider response. -/
def Agent.assistantMessage (resp : Agent.LLMResponse) : Message :=
  ⟨"assistant", resp.content, resp.tool_calls, none, none⟩

/-- `call_llm` written via the helper definitions. -/
theorem call_llm_spec (P : Agent.Provider) (sysPrompt : String) (st : Agent.AgentState) :
    Agent.call_llm P sysPrompt st
      = { st with
          messages := st.messages
            ++ [Agent.assistantMessage (P (Agent.fedMessages sysPrompt st.messages))],
          thinking_events := st.thinking_events
            ++ (let resp := P (Agent.fedMessages sysPrompt st.messages)
                if !resp.tool_calls.isEmpty then
                  resp.tool_calls.map fun tc =>
                    ⟨.tool_call,
                     "Calling tool with arguments:\n```json\n" ++ tc.arguments ++ "\n```",
                     some tc.name, some tc.arguments⟩
                else
                  match resp.content with
                  | some s => if s ≠ "" then [⟨.reasoning, s, none, none⟩] else []
                  | none => []) } := by
  unfold Agent.call_llm Agent.fedMessages Agent.assistantMessage Agent.systemMessage
  rfl

/-- The last message after `call_llm` is the fresh assistant message. -/
theorem call_llm_getLast (P : Agent.Provider) (sysPrompt : String) (st : Agent.AgentState) :
    (Agent.call_llm P sysPrompt st).messages.getLast?
      = some (Agent.assistantMessage (P (Agent.fedMessages sysPrompt st.messages))) := by
  rw [call_llm_spec]
  exact List.getLast?_concat _

/-- `call_llm` does not change the tool-call counter. -/
theorem call_llm_count (P : Agent.Provider) (sysPrompt : String) (st : Agent.AgentState) :
    (Agent.call_llm P sysPrompt st).tool_calls_made = st.tool_calls_made := by
  rw [call_llm_spec]

/-- `should_continue` ends the run once the counter has reached the cap. -/
theorem should_continue_cap (maxTC : Nat) (st : Agent.AgentState) (last : Message)
    (hl : st.messages.getLast? = some last) (hcap : maxTC ≤ st.tool_calls_made) :
    Agent.should_continue maxTC st = .ok .finish := by
  unfold Agent.should_continue
  rw [hl]
  simp [hcap]

/-- `should_continue` routes to the tools node under the cap when the last
message has pending tool calls. -/
theorem should_continue_tools (maxTC : Nat) (st : Agent.AgentState) (last : Message)
    (hl : st.messages.getLast? = some last) (hcap : ¬ maxTC ≤ st.tool_calls_made)
    (htc : last.tool_calls ≠ []) :
    Agent.should_continue maxTC st = .ok .tools := by
  unfold Agent.should_continue
  rw [hl]
  simp [hcap, htc]

/-- `should_continue` ends the run when the last message has no tool calls. -/
theorem should_continue_plain (maxTC : Nat) (st : Agent.AgentState) (last : Message)
    (hl : st.messages.getLast? = some last) (htc : last.tool_calls = []) :
    Agent.should_continue maxTC st = .ok .finish := by
  unfold Agent.should_continue
  rw [hl]
  simp [htc]

/-- `finalize` succeeds whenever a last message exists, keeping the
messages and counter and recording the final answer. -/
theorem finalize_ok (st : Agent.AgentState) (last : Message)
    (hl : st.messages.getLast? = some last) :
    Agent.finalize st
      = .ok { st with
          final_answer := last.content,
          thinking_events := st.thinking_events
            ++ (match last.content with
                | some s => if s ≠ "" then [⟨.final_answer, s, none, none⟩] else []
                | none => []) } := by
  unfold Agent.finalize
  rw [hl]

/-- Unfolding `runLoop` when the route after the LLM call is `finish`. -/
theorem runLoop_step_finish (P : Agent.Provider) (O : Agent.ToolOracle)
    (sysPrompt : String) (maxTC fuel : Nat) (st : Agent.AgentState)
    (hroute : Agent.should_continue maxTC (Agent.call_llm P sysPrompt st) = .ok .finish) :
    Agent.runLoop P O sysPrompt maxTC fuel st
      = (Agent.finalize (Agent.call_llm P sysPrompt st)).map some := by
  unfold Agent.runLoop
  simp only [hroute]
  cases hf : Agent.finalize (Agent.call_llm P sysPrompt st) <;> simp [hf, Except.map]

/-- Unfolding `runLoop` when the route is `tools` and fuel remains. -/
theorem runLoop_step_tools (P : Agent.Provider) (O : Agent.ToolOracle)
    (sysPrompt : String) (maxTC fuel : Nat) (st : Agent.AgentState)
    (hroute : Agent.should_continue maxTC (Agent.call_llm P sysPrompt st) = .ok .tools) :
    Agent.runLoop P O sysPrompt maxTC (fuel + 1) st
      = Except.bind (Agent.execute_tools O (Agent.call_llm P sysPrompt st))
          (Agent.runLoop P O sysPrompt maxTC fuel) := by
  unfold Agent.runLoop
  simp only [hroute]
  cases he : Agent.execute_tools O (Agent.call_llm P sysPrompt st) <;>
    simp [he, Except.bind]

/-- Unfolding `runLoop` when the route is `tools` and the fuel is spent. -/
theorem runLoop_zero_tools (P : Agent.Provider) (O : Agent.ToolOracle)
    (sysPrompt : String) (maxTC : Nat) (st : Agent.AgentState)
    (hroute : Agent.should_continue maxTC (Agent.call_llm P sysPrompt st) = .ok .tools) :
    Agent.runLoop P O sysPrompt maxTC 0 st = .ok none := by
  unfold Agent.runLoop
  simp only [hroute]

/-- Fixture provider that always requests a single tool invocation. -/
def agentFixP : Agent.Provider := fun _ => ⟨none, [⟨"1", "t", "\x7b\x7d"⟩]⟩

/-- Fixture tool client that raises an exception on every invocation. -/
def agentFixOraise : Agent.ToolOracle := fun _ _ => .error (.runtimeError "boom")

/-- Claim C2, counterexample: the claim says an exception raised while
invoking a tool does not abort the loop. With a provider requesting one
tool call and a tool client whose invocation raises, the run aborts with
that exception (there is no try/except around `call_tool` in
`execute_tools`): no error event is recorded in a returned state and no
tool-role message is appended, because no state is returned at all. -/
theorem C2_exception_aborts_run :
    Agent.runLoop agentFixP agentFixOraise "sys" 10 10 (Agent.initialState "q")
      = .error (.runtimeError "boom") := by
  rfl

/-- Claim C2, amended: a tool execution error REPORTED by the Tool Client
(a result with `isError` true, no exception) is absorbed: the orchestrator
emits an `error` Thinking Event per failed call, appends a tool-role
message carrying the error text (`"Error: " ++ text`) for each, does not
abort, and the loop proceeds to the next LLM call (second conjunct: with a
tool client that returns results — error-flagged or not — for every call,
the whole run never raises). An exception raised while invoking the tool,
by contrast, propagates and aborts the run (see the counterexample). -/
theorem C2_isError_absorbed_amended :
    (∀ (O : Agent.ToolOracle) (f : ToolCallRec → Agent.ToolResult)
       (st : Agent.AgentState) (last : Message),
      st.messages.getLast? = some last →
      (∀ tc ∈ last.tool_calls,
        O tc.name tc.arguments = .ok (f tc) ∧ (f tc).is_error = true) →
      Agent.execute_tools O st
        = .ok { st with
            messages := st.messages ++ last.tool_calls.map fun tc =>
              ⟨"tool", some ("Error: " ++ (f tc).content), [], some tc.name, some tc.id⟩,
            thinking_events := st.thinking_events ++ last.tool_calls.map fun tc =>
              ⟨.error, "Error: " ++ (f tc).content, some tc.name, none⟩,
            tool_calls_made := st.tool_calls_made + last.tool_calls.length })
    ∧ (∀ (P : Agent.Provider) (O : Agent.ToolOracle) (f : String → String → Agent.ToolResult)
         (sysPrompt : String) (maxTC : Nat),
      (∀ n a, O n a = .ok (f n a)) →
      ∀ (fuel : Nat) (st : Agent.AgentState),
      ∃ r, Agent.runLoop P O sysPrompt maxTC fuel st = .ok r) := by
  constructor
  · intro O f st last hlast hok
    rw [execute_tools_ok O f st last hlast fun tc htc => (hok tc htc).1]
    have hmsg : (last.tool_calls.map fun tc => Agent.toolMessage tc (f tc))
        = last.tool_calls.map fun tc =>
            (⟨"tool", some ("Error: " ++ (f tc).content), [], some tc.name, some tc.id⟩ : Message) := by
      refine List.map_congr_left fun tc htc => ?_
      simp [Agent.toolMessage, Agent.toolResultContent, (hok tc htc).2]
    have hev : (last.tool_calls.map fun tc => Agent.toolEvent tc.name (f tc))
        = last.tool_calls.map fun tc =>
            (⟨.error, "Error: " ++ (f tc).content, some tc.name, none⟩ : Agent.ThinkingEvent) := by
      refine List.map_congr_left fun tc htc => ?_
      simp [Agent.toolEvent, Agent.toolResultContent, (hok tc htc).2]
    rw [hmsg, hev]
  · intro P O f sysPrompt maxTC hO fuel
    induction fuel with
    | zero =>
      intro st
      by_cases hcap : maxTC ≤ (Agent.call_llm P sysPrompt st).tool_calls_made
      · have heq := runLoop_step_finish P O sysPrompt maxTC 0 st
          (should_continue_cap maxTC _ _ (call_llm_getLast P sysPrompt st) hcap)
        rw [finalize_ok _ _ (call_llm_getLast P sysPrompt st)] at heq
        exact ⟨_, heq⟩
      · by_cases htc : (Agent.assistantMessage
            (P (Agent.fedMessages sysPrompt st.messages))).tool_calls = []
        · have heq := runLoop_step_finish P O sysPrompt maxTC 0 st
            (should_continue_plain maxTC _ _ (call_llm_getLast P sysPrompt st) htc)
          rw [finalize_ok _ _ (call_llm_getLast P sysPrompt st)] at heq
          exact ⟨_, heq⟩
        · exact ⟨none, runLoop_zero_tools P O sysPrompt maxTC st
            (should_continue_tools maxTC _ _ (call_llm_getLast P sysPrompt st) hcap htc)⟩
    | succ fuel ih =>
      intro st
      by_cases hcap : maxTC ≤ (Agent.call_llm P sysPrompt st).tool_calls_made
      · have heq := runLoop_step_finish P O sysPrompt maxTC (fuel + 1) st
          (should_continue_cap maxTC _ _ (call_llm_getLast P sysPrompt st) hcap)
        rw [finalize_ok _ _ (call_llm_getLast P sysPrompt st)] at heq
        exact ⟨_, heq⟩
      · by_cases htc : (Agent.assistantMessage
            (P (Agent.fedMessages sysPrompt st.messages))).tool_calls = []
        · have heq := runLoop_step_finish P O sysPrompt maxTC (fuel + 1) st
            (should_continue_plain maxTC _ _ (call_llm_getLast P sysPrompt st) htc)
          rw [finalize_ok _ _ (call_llm_getLast P sysPrompt st)] at heq
          exact ⟨_, heq⟩
        · rw [runLoop_step_tools P O sysPrompt maxTC fuel st
              (should_continue_tools maxTC _ _ (call_llm_getLast P sysPrompt st) hcap htc)]
          rw [execute_tools_ok O (fun tc => f tc.name tc.arguments) _ _
              (call_llm_getLast P sysPrompt st) (fun tc _ => hO tc.name tc.arguments)]
          exact ih _

/-- Budget-exhaustion run of the loop: with a provider that always
requests at least one tool invocation and a tool client that always
returns a result, `fuel` tool rounds suffice whenever the cap is within
`fuel` of the counter, and the run ends with the cap reached and pending
tool calls on the last message. -/
theorem runLoop_exhausts_budget (P : Agent.Provider) (O : Agent.ToolOracle)
    (sysPrompt : String) (maxTC : Nat)
    (hP : ∀ msgs, (P msgs).tool_calls ≠ [])
    (f : String → String → Agent.ToolResult)
    (hO : ∀ n a, O n a = .ok (f n a)) :
    ∀ (fuel : Nat) (st : Agent.AgentState),
    maxTC ≤ st.tool_calls_made + fuel →
    ∃ st', Agent.runLoop P O sysPrompt maxTC fuel st = .ok (some st')
      ∧ maxTC ≤ st'.tool_calls_made
      ∧ ∃ last, st'.messages.getLast? = some last ∧ last.tool_calls ≠ [] := by
  intro fuel
  induction fuel with
  | zero =>
    intro st hb
    have hcap : maxTC ≤ (Agent.call_llm P sysPrompt st).tool_calls_made := by
      rw [call_llm_count]
      omega
    have heq := runLoop_step_finish P O sysPrompt maxTC 0 st
      (should_continue_cap maxTC _ _ (call_llm_getLast P sysPrompt st) hcap)
    rw [finalize_ok _ _ (call_llm_getLast P sysPrompt st)] at heq
    refine ⟨_, heq, hcap, Agent.assistantMessage (P (Agent.fedMessages sysPrompt st.messages)), ?_, ?_⟩
    · exact call_llm_getLast P sysPrompt st
    · exact hP _
  | succ fuel ih =>
    intro st hb
    by_cases hcap : maxTC ≤ (Agent.call_llm P sysPrompt st).tool_calls_made
    · have heq := runLoop_step_finish P O sysPrompt maxTC (fuel + 1) st
        (should_continue_cap maxTC _ _ (call_llm_getLast P sysPrompt st) hcap)
      rw [finalize_ok _ _ (call_llm_getLast P sysPrompt st)] at heq
      refine ⟨_, heq, hcap, Agent.assistantMessage (P (Agent.fedMessages sysPrompt st.messages)), ?_, ?_⟩
      · exact call_llm_getLast P sysPrompt st
      · exact hP _
    · have htc : (Agent.assistantMessage
          (P (Agent.fedMessages sysPrompt st.messages))).tool_calls ≠ [] := hP _
      rw [runLoop_step_tools P O sysPrompt maxTC fuel st
          (should_continue_tools maxTC _ _ (call_llm_getLast P sysPrompt st) hcap htc),
        execute_tools_ok O (fun tc => f tc.name tc.arguments) _ _
          (call_llm_getLast P sysPrompt st) (fun tc _ => hO tc.name tc.arguments)]
      apply ih
      have hlen : 1 ≤ (Agent.assistantMessage
          (P (Agent.fedMessages sysPrompt st.messages))).tool_calls.length :=
        List.length_pos.mpr htc
      have hc := call_llm_count P sysPrompt st
      simp only [Agent.AgentState.tool_calls_made] at hc ⊢
      omega

/-- Claim C1: for every configured tool-call budget N and every LLM
provider stub that always returns at least one tool invocation (with a
tool client that always returns a result), the orchestrator loop
terminates within N passes through the tools node — fuel N suffices, so it
always terminates in finite steps even though the model never stops
requesting tools — and it returns a budget-exhaustion result: the
tool-call counter has reached the budget and the final message still
carries pending (unexecuted) tool calls. -/
theorem C1_loop_terminates_at_budget :
    ∀ (P : Agent.Provider) (O : Agent.ToolOracle) (sysPrompt query : String) (maxTC : Nat),
    (∀ msgs, (P msgs).tool_calls ≠ []) →
    (∀ n a, ∃ r, O n a = .ok r) →
    ∃ st, Agent.runLoop P O sysPrompt maxTC maxTC (Agent.initialState query) = .ok (some st)
      ∧ maxTC ≤ st.tool_calls_made
      ∧ ∃ last, st.messages.getLast? = some last ∧ last.tool_calls ≠ [] := by
  intro P O sysPrompt query maxTC hP hO
  choose f hf using hO
  exact runLoop_exhausts_budget P O sysPrompt maxTC hP f hf maxTC
    (Agent.initialState query) (by simp [Agent.initialState])

/-- Fixture tool client that always succeeds with a short result. -/
def agentFixOok : Agent.ToolOracle := fun _ _ => .ok ⟨"res", false⟩

/-- Witness for C1 at budget 2 with the always-requesting provider stub
and an always-succeeding tool client. -/
theorem C1_witness :
    ∃ st, Agent.runLoop agentFixP agentFixOok "sys" 2 2 (Agent.initialState "q") = .ok (some st)
      ∧ 2 ≤ st.tool_calls_made
      ∧ ∃ last, st.messages.getLast? = some last ∧ last.tool_calls ≠ [] :=
  C1_loop_terminates_at_budget agentFixP agentFixOok "sys" "q" 2
    (fun msgs => by simp [agentFixP])
    (fun n a => ⟨⟨"res", false⟩, rfl⟩)

/-- Fixture tool client that reports a tool-level error on every call. -/
def agentFixOerr : Agent.ToolOracle := fun _ _ => .ok ⟨"bad", true⟩

/-- Fixture state whose last message is an assistant message with one
pending tool call. -/
def agentFixStTools : Agent.AgentState :=
  ⟨[⟨"user", some "q", [], none, none⟩,
    ⟨"assistant", none, [⟨"1", "t", "\x7b\x7d"⟩], none, none⟩], [], 0, none⟩

/-- The last message of `agentFixStTools`. -/
def agentFixLastTools : Message := ⟨"assistant", none, [⟨"1", "t", "\x7b\x7d"⟩], none, none⟩

/-- Witness for the amended C2: at a concrete error-flagged tool call the
node succeeds, appends the `"Error: bad"` tool message, emits the error
event, and a concrete full run with an error-reporting tool client returns
without raising. -/
theorem C2_isError_absorbed_witness :
    Agent.execute_tools agentFixOerr agentFixStTools
      = .ok { agentFixStTools with
          messages := agentFixStTools.messages ++ agentFixLastTools.tool_calls.map fun tc =>
            ⟨"tool", some ("Error: " ++ "bad"), [], some tc.name, some tc.id⟩,
          thinking_events := agentFixStTools.thinking_events
            ++ agentFixLastTools.tool_calls.map fun tc =>
              ⟨.error, "Error: " ++ "bad", some tc.name, none⟩,
          tool_calls_made := agentFixStTools.tool_calls_made + agentFixLastTools.tool_calls.length }
    ∧ ∃ r, Agent.runLoop agentFixP agentFixOerr "sys" 2 5 (Agent.initialState "q") = .ok r :=
  ⟨C2_isError_absorbed_amended.1 agentFixOerr (fun _ => ⟨"bad", true⟩)
      agentFixStTools agentFixLastTools rfl (fun _ _ => ⟨rfl, rfl⟩),
   C2_isError_absorbed_amended.2 agentFixP agentFixOerr (fun _ _ => ⟨"bad", true⟩)
      "sys" 2 (fun _ _ => rfl) 5 (Agent.initialState "q")⟩

/-- A 501-character result string, long enough to trigger truncation. -/
def agentFixLongStr : String := String.mk (List.replicate 501 'a')

/-- Fixture tool client returning the long result successfully. -/
def agentFixOlong : Agent.ToolOracle := fun _ _ => .ok ⟨agentFixLongStr, false⟩

set_option maxRecDepth 8192 in
/-- Witness for C7 at a concrete over-long successful result: the event is
truncated to 500 characters plus the marker, the tool message keeps the
full 501-character text. -/
theorem C7_witness :
    Agent.execute_tools agentFixOlong agentFixStTools
      = .ok { agentFixStTools with
          messages := agentFixStTools.messages ++ agentFixLastTools.tool_calls.map fun tc =>
            ⟨"tool", some agentFixLongStr, [], some tc.name, some tc.id⟩,
          thinking_events := agentFixStTools.thinking_events
            ++ agentFixLastTools.tool_calls.map fun tc =>
              ⟨.tool_result, agentFixLongStr.take 500 ++ "...", some tc.name, none⟩,
          tool_calls_made := agentFixStTools.tool_calls_made + agentFixLastTools.tool_calls.length } := by
  have h := C7_truncation_is_display_only agentFixOlong (fun _ => ⟨agentFixLongStr, false⟩)
    agentFixStTools agentFixLastTools rfl (fun tc _ => ⟨rfl, rfl⟩)
  rw [h]
  have hlong : 500 < agentFixLongStr.length := by decide
  simp [hlong]
